import Mathlib

/-!
Verification development for the project-index engine
(`scripts/index_utils.py`, `scripts/project_index.py`).

The Python code is shallowly embedded: text is `List Char`, Python dicts are
association lists preserving insertion order, regular expressions are
translated into a small backtracking matcher whose search order mirrors
CPython's `re` engine (leftmost match, greedy quantifiers try longest first,
lazy quantifiers shortest first, alternatives left to right).  Character
classes `\w`, `\s`, `\d` are modelled by their ASCII meaning; every input
considered in the concrete theorems below is ASCII.
-/

set_option autoImplicit false

namespace ProjIdx

/-- Text, as a list of characters (Python `str`). -/
abbrev Str := List Char

/-- String literal to `Str`. -/
def chars (s : String) : Str := s.data

/-- Python whitespace (`\s` and `str.strip()`): space, tab, LF, CR, VT, FF. -/
def pyIsSpace (c : Char) : Bool :=
  c = ' ' || c = '\t' || c = '\n' || c = '\r' || c = '\x0b' || c = '\x0c'

/-- ASCII `\w`: letters, digits, underscore. -/
def isWordChar (c : Char) : Bool :=
  ('a' ≤ c && c ≤ 'z') || ('A' ≤ c && c ≤ 'Z') || ('0' ≤ c && c ≤ '9') || c = '_'

/-- ASCII `\d`. -/
def isDigitCh (c : Char) : Bool := '0' ≤ c && c ≤ '9'

/-- ASCII `[A-Z_]`. -/
def isUpperUnd (c : Char) : Bool := ('A' ≤ c && c ≤ 'Z') || c = '_'

/-- ASCII `[A-Z0-9_]`. -/
def isUpperDigUnd (c : Char) : Bool := isUpperUnd c || isDigitCh c

/-- `str.lstrip()`. -/
def pyLStrip (s : Str) : Str := s.dropWhile (fun c => pyIsSpace c)

/-- `str.rstrip()`. -/
def pyRStrip (s : Str) : Str := (pyLStrip s.reverse).reverse

/-- `str.strip()`. -/
def pyStrip (s : Str) : Str := pyRStrip (pyLStrip s)

/-- `str.startswith(pre)`. -/
def strStarts : Str → Str → Bool
  | _, [] => true
  | [], _ :: _ => false
  | c :: s, p :: pre => c = p && strStarts s pre

/-- `sub in s` (substring containment). -/
def strContains : Str → Str → Bool
  | s, sub =>
    if strStarts s sub then true
    else match s with
      | [] => false
      | _ :: t => strContains t sub

/-- `str.lower()` (ASCII). -/
def pyLower (s : Str) : Str := s.map Char.toLower

/-- `str.replace(a, b)` for single characters `a`, `b`. -/
def pyReplaceChar (s : Str) (a b : Char) : Str :=
  s.map (fun c => if c = a then b else c)

/-- `str.count(c)` for a single character. -/
def countChar (s : Str) (c : Char) : Nat := s.countP (fun d => decide (d = c))

/-- `str.split(sep)` for a one-character separator (keeps empty parts). -/
def splitOnChar (sep : Char) : Str → List Str
  | [] => [[]]
  | c :: t =>
    if c = sep then [] :: splitOnChar sep t
    else match splitOnChar sep t with
      | [] => [[c]]
      | h :: r => (c :: h) :: r

/-- `str.split()` (no argument), fuelled for kernel reduction: split on
whitespace runs, no empty parts.  The head of `s.dropWhile pyIsSpace` is
never a space, so taking the rest of the word from `t` matches Python's
behaviour.  The fuel supplied by the wrapper always suffices (each step
strictly shortens the text). -/
def pySplitWSF : Nat → Str → List Str
  | 0, _ => []
  | fuel + 1, s =>
    match s.dropWhile (fun c => pyIsSpace c) with
    | [] => []
    | c :: t =>
      (c :: t.takeWhile (fun d => !pyIsSpace d)) ::
        pySplitWSF fuel (t.dropWhile (fun d => !pyIsSpace d))

/-- `str.split()` (no argument). -/
def pySplitWS (s : Str) : List Str := pySplitWSF (s.length + 1) s

/-- `sep.join(parts)`. -/
def joinSep (sep : Str) : List Str → Str
  | [] => []
  | [x] => x
  | x :: y :: t => x ++ sep ++ joinSep sep (y :: t)

/-- The part of `s` before the first occurrence of `sub` (`s.split(sub)[0]`);
the whole of `s` when `sub` does not occur. -/
def beforeFirst (s sub : Str) : Str :=
  if strStarts s sub then []
  else match s with
    | [] => []
    | c :: t => c :: beforeFirst t sub

/-- `content[a:b]` (Python slice with clamping). -/
def sliceStr (s : Str) (a b : Nat) : Str := (s.drop a).take (b - a)

/-- `s.find(c, start)` for a one-character needle; `none` models `-1`. -/
def strFindFrom (s : Str) (c : Char) (start : Nat) : Option Nat :=
  match (s.drop start).findIdx? (fun d => d = c) with
  | some k => some (start + k)
  | none => none

/-- `str.isdigit()` (ASCII). -/
def pyIsdigitStr (s : Str) : Bool := !s.isEmpty && s.all (fun c => isDigitCh c)

/-- `re.sub(r'\s+', ' ', s)`, fuelled: every whitespace run becomes one
space.  The wrapper's fuel always suffices. -/
def collapseWSF : Nat → Str → Str
  | 0, _ => []
  | fuel + 1, s =>
    match s with
    | [] => []
    | c :: t =>
      if pyIsSpace c then ' ' :: collapseWSF fuel (t.dropWhile (fun d => pyIsSpace d))
      else c :: collapseWSF fuel t

/-- `re.sub(r'\s+', ' ', s)`. -/
def collapseWS (s : Str) : Str := collapseWSF (s.length + 1) s

/-- Python string `<=` (lexicographic by code point; ASCII inputs). -/
def strLe : Str → Str → Bool
  | [], _ => true
  | _ :: _, [] => false
  | a :: as, b :: bs =>
    if a.toNat < b.toNat then true
    else if b.toNat < a.toNat then false
    else strLe as bs

/-- `sorted(l)` for strings: insertion sort (the comparison is a total order
on strings, so the result is the unique ascending ordering). -/
def insSorted (x : Str) : List Str → List Str
  | [] => [x]
  | y :: ys => if strLe y x then y :: insSorted x ys else x :: y :: ys

/-- `sorted(l)`. -/
def pySorted (l : List Str) : List Str := l.foldr insSorted []

/-- `l` is ascending under `strLe` (adjacent pairs). -/
def strSortedB : List Str → Bool
  | [] => true
  | [_] => true
  | a :: b :: t => strLe a b && strSortedB (b :: t)

/-- Add to a list only if absent (`if x not in l: l.append(x)`). -/
def dedupAdd (l : List Str) (x : Str) : List Str :=
  if x ∈ l then l else l ++ [x]

/-- `del result[key]` for an empty collection, i.e. the post-processing
`if not result[k]: del result[k]` found at the end of every extractor. -/
def emptyToNone {α : Type} (l : List α) : Option (List α) :=
  match l with
  | [] => none
  | x :: t => some (x :: t)

/-- De-duplicate keeping first occurrences (models `list(set(x))` up to
order, which Python leaves unspecified; only membership is relied upon). -/
def dedupList (l : List Str) : List Str := l.foldl dedupAdd []

/- ============ Python dicts as insertion-ordered association lists ============ -/

/-- `d[k]` lookup. -/
def dget? {α : Type} : List (Str × α) → Str → Option α
  | [], _ => none
  | (k', v) :: t, k => if k' = k then some v else dget? t k

/-- `k in d`. -/
def dmem {α : Type} (d : List (Str × α)) (k : Str) : Bool := (dget? d k).isSome

/-- `d[k] = v`: replace in place when the key exists, else append. -/
def dinsert {α : Type} : List (Str × α) → Str → α → List (Str × α)
  | [], k, v => [(k, v)]
  | (k', v') :: t, k, v =>
    if k' = k then (k', v) :: t else (k', v') :: dinsert t k v

/-- Update the value at `k` when present; no-op otherwise.  (Used only where
the Python code indexes a dict whose key was inserted earlier.) -/
def dmodify {α : Type} (d : List (Str × α)) (k : Str) (f : α → α) : List (Str × α) :=
  match d with
  | [] => []
  | (k', v) :: t => if k' = k then (k', f v) :: t else (k', v) :: dmodify t k f

/-- `d.get(k, dflt)`. -/
def dgetD {α : Type} (d : List (Str × α)) (k : Str) (dflt : α) : α :=
  (dget? d k).getD dflt

/-- `list(d.keys())`. -/
def dkeys {α : Type} (d : List (Str × α)) : List Str := d.map Prod.fst

/- ============ Backtracking regex matcher ============

Each Python regular expression used by the indexer is translated, construct
by construct, into a matcher.  A matcher returns, for a subject, a start
position and the captures collected so far, the list of all possible
(end position, captures) outcomes in the engine's backtracking priority
order; the first element is the outcome CPython's `re` commits to.  Greedy
quantifiers enumerate longest first, lazy ones shortest first, alternatives
left to right, and sequencing composes outcome lists lexicographically —
exactly the search order of the backtracking engine in CPython's `re`. -/

/-- Captures: (group number, start position, captured text), innermost first. -/
abbrev Caps := List (Nat × Nat × Str)

/-- A matcher (see the section comment). -/
abbrev M := Str → Nat → Caps → List (Nat × Caps)

/-- Empty pattern. -/
def meps : M := fun _ p c => [(p, c)]

/-- Sequencing (`ab`). -/
def mseq (a b : M) : M := fun s p c => (a s p c).foldr (fun r acc => b s r.1 r.2 ++ acc) []

/-- Sequencing a list of patterns. -/
def mseqs (l : List M) : M := l.foldr mseq meps

/-- A literal run of characters. -/
def mlit (t : String) : M := fun s p c =>
  if p + t.data.length ≤ s.length ∧ sliceStr s p (p + t.data.length) = t.data
  then [(p + t.data.length, c)] else []

/-- A single character from a class (`[...]`, `\w`, `.`, …). -/
def mcls (f : Char → Bool) : M := fun s p c =>
  match s.get? p with
  | some ch => if f ch then [(p + 1, c)] else []
  | none => []

/-- Length of the maximal run of class characters starting at `p`. -/
def runLen (f : Char → Bool) (s : Str) (p : Nat) : Nat :=
  ((s.drop p).takeWhile f).length

/-- Greedy `[...]​*`: longest first. -/
def mstarG (f : Char → Bool) : M := fun s p c =>
  ((List.range (runLen f s p + 1)).reverse).map (fun k => (p + k, c))

/-- Lazy `[...]​*?`: shortest first. -/
def mstarL (f : Char → Bool) : M := fun s p c =>
  (List.range (runLen f s p + 1)).map (fun k => (p + k, c))

/-- Greedy `[...]​+`. -/
def mplusG (f : Char → Bool) : M := fun s p c =>
  ((List.range (runLen f s p)).reverse).map (fun k => (p + k + 1, c))

/-- Lazy `[...]​+?`. -/
def mplusL (f : Char → Bool) : M := fun s p c =>
  (List.range (runLen f s p)).map (fun k => (p + k + 1, c))

/-- Greedy optional group `(...)?`: with the group first. -/
def mopt (a : M) : M := fun s p c => a s p c ++ [(p, c)]

/-- Alternation, left to right. -/
def malt (l : List M) : M := fun s p c => l.foldr (fun m acc => m s p c ++ acc) []

/-- Capturing group number `i`. -/
def mgrp (i : Nat) (a : M) : M := fun s p c =>
  (a s p c).map (fun r => (r.1, (i, p, sliceStr s p r.1) :: r.2))

/-- `^` under `re.MULTILINE` (also the anchoring used when a pattern is
applied with `re.match`, where scanning starts at position 0 only). -/
def mbol : M := fun s p c =>
  if p = 0 ∨ s.get? (p - 1) = some '\n' then [(p, c)] else []

/-- `$` under `re.MULTILINE`: end of the subject or just before a `'\n'`. -/
def meolM : M := fun s p c =>
  if p = s.length ∨ s.get? p = some '\n' then [(p, c)] else []

/-- `$` without `re.MULTILINE`: end of the subject, or just before a final `'\n'`. -/
def meolS : M := fun s p c =>
  if p = s.length ∨ (p + 1 = s.length ∧ s.get? p = some '\n') then [(p, c)] else []

/-- `\b`: word character on exactly one side of the position. -/
def mwb : M := fun s p c =>
  let prevW := if p = 0 then false else isWordChar (((s.get? (p - 1))).getD ' ')
  let nextW := isWordChar ((s.get? p).getD ' ')
  if prevW ≠ nextW then [(p, c)] else []

/-- One match attempt anchored at `p` (the engine's first outcome). -/
def reMatchAt (m : M) (s : Str) (p : Nat) : Option (Nat × Caps) := (m s p []).head?

/-- `re.match(pat, s)`. -/
def reMatch (m : M) (s : Str) : Option (Nat × Caps) := reMatchAt m s 0

/-- A match result: span plus captures. -/
structure MRes where
  start : Nat
  stop : Nat
  caps : Caps
deriving DecidableEq, Repr

/-- `m.group(i)`: `none` when the group did not participate. -/
def grp? (r : MRes) (i : Nat) : Option Str :=
  (r.caps.find? (fun t => t.1 = i)).map (fun t => t.2.2)

/-- `m.start(i)` for a participating group. -/
def grpStart? (r : MRes) (i : Nat) : Option Nat :=
  (r.caps.find? (fun t => t.1 = i)).map (fun t => t.2.1)

/-- `re.search` scanning from `p`, fuelled (the wrapper's fuel covers every
remaining scan position, so exhaustion is unreachable). -/
def reSearchFromF (m : M) (s : Str) : Nat → Nat → Option MRes
  | 0, _ => none
  | fuel + 1, p =>
    if p ≤ s.length then
      match reMatchAt m s p with
      | some (e, cs) => some ⟨p, e, cs⟩
      | none => if p < s.length then reSearchFromF m s fuel (p + 1) else none
    else none

/-- `re.search(pat, s)`. -/
def reSearch (m : M) (s : Str) : Option MRes := reSearchFromF m s (s.length + 1) 0

/-- `re.finditer` scanning from `p`, fuelled (non-overlapping; an empty
match advances the scan position by one, as in CPython; the wrapper's fuel
always suffices since the position strictly increases). -/
def reFinditerFromF (m : M) (s : Str) : Nat → Nat → List MRes
  | 0, _ => []
  | fuel + 1, p =>
    if p ≤ s.length then
      match reMatchAt m s p with
      | some (e, cs) =>
        if p < e ∧ e ≤ s.length then
          ⟨p, e, cs⟩ :: reFinditerFromF m s fuel e
        else
          ⟨p, e, cs⟩ :: (if p < s.length then reFinditerFromF m s fuel (p + 1) else [])
      | none => if p < s.length then reFinditerFromF m s fuel (p + 1) else []
    else []

/-- `re.finditer(pat, s)`. -/
def reFinditer (m : M) (s : Str) : List MRes := reFinditerFromF m s (s.length + 1) 0

/-- A literal run of characters, given as `Str` (for interpolated names). -/
def mlits (t : Str) : M := fun s p c =>
  if p + t.length ≤ s.length ∧ sliceStr s p (p + t.length) = t
  then [(p + t.length, c)] else []

/-- `[ \t]`. -/
def isIndentChar (c : Char) : Bool := c = ' ' || c = '\t'

/-- `.` without `re.DOTALL`. -/
def notNl (c : Char) : Bool := c ≠ '\n'

/- ============ The regexes of index_utils.py, translated ============ -/

/-- `^(?:[ \t]*)(async\s+)?def\s+(\w+)\s*\(`  (collect-all-names pass). -/
def regPyDefName : M :=
  mseqs [mstarG isIndentChar,
         mopt (mgrp 1 (mseqs [mlit "async", mplusG pyIsSpace])),
         mlit "def", mplusG pyIsSpace,
         mgrp 2 (mplusG isWordChar),
         mstarG pyIsSpace, mlit "("]

/-- `^([ \t]*)class\s+(\w+)(?:\s*\((.*?)\))?:`. -/
def regPyClass : M :=
  mseqs [mgrp 1 (mstarG isIndentChar), mlit "class", mplusG pyIsSpace,
         mgrp 2 (mplusG isWordChar),
         mopt (mseqs [mstarG pyIsSpace, mlit "(", mgrp 3 (mstarL notNl), mlit ")"]),
         mlit ":"]

/-- `^([ \t]*)(async\s+)?def\s+(\w+)\s*\((.*?)\)(?:\s*->\s*([^:]+))?:`. -/
def regPyFunc : M :=
  mseqs [mgrp 1 (mstarG isIndentChar),
         mopt (mgrp 2 (mseqs [mlit "async", mplusG pyIsSpace])),
         mlit "def", mplusG pyIsSpace, mgrp 3 (mplusG isWordChar),
         mstarG pyIsSpace, mlit "(", mgrp 4 (mstarL notNl), mlit ")",
         mopt (mseqs [mstarG pyIsSpace, mlit "->", mstarG pyIsSpace,
                      mgrp 5 (mplusG (fun c => c ≠ ':'))]),
         mlit ":"]

/-- `^([ \t]*)(async\s+)?def\s+(\w+)\s*\(`  (function-start check). -/
def regPyFuncStart : M :=
  mseqs [mgrp 1 (mstarG isIndentChar),
         mopt (mgrp 2 (mseqs [mlit "async", mplusG pyIsSpace])),
         mlit "def", mplusG pyIsSpace, mgrp 3 (mplusG isWordChar),
         mstarG pyIsSpace, mlit "("]

/-- `^([ \t]*)(\w+)\s*:\s*([^=\n]+)`  (class property). -/
def regPyProperty : M :=
  mseqs [mgrp 1 (mstarG isIndentChar), mgrp 2 (mplusG isWordChar),
         mstarG pyIsSpace, mlit ":", mstarG pyIsSpace,
         mgrp 3 (mplusG (fun c => c ≠ '=' && c ≠ '\n'))]

/-- `^([A-Z_][A-Z0-9_]*)\s*=\s*(.+)$`  (module constant). -/
def regPyModuleConst : M :=
  mseqs [mgrp 1 (mseq (mcls isUpperUnd) (mstarG isUpperDigUnd)),
         mstarG pyIsSpace, mlit "=", mstarG pyIsSpace,
         mgrp 2 (mplusG notNl), meolS]

/-- `^(\w+)\s*:\s*([^=]+)\s*=`  (typed module variable). -/
def regPyModuleVar : M :=
  mseqs [mgrp 1 (mplusG isWordChar), mstarG pyIsSpace, mlit ":", mstarG pyIsSpace,
         mgrp 2 (mplusG (fun c => c ≠ '=')), mstarG pyIsSpace, mlit "="]

/-- `^([ \t]+)([A-Z_][A-Z0-9_]*)\s*=\s*(.+)$`  (class constant). -/
def regPyClassConst : M :=
  mseqs [mgrp 1 (mplusG isIndentChar),
         mgrp 2 (mseq (mcls isUpperUnd) (mstarG isUpperDigUnd)),
         mstarG pyIsSpace, mlit "=", mstarG pyIsSpace,
         mgrp 3 (mplusG notNl), meolS]

/-- `^(?:from\s+([^\s]+)\s+)?import\s+(.+)$`. -/
def regPyImport : M :=
  mseqs [mopt (mseqs [mlit "from", mplusG pyIsSpace,
                      mgrp 1 (mplusG (fun c => !pyIsSpace c)), mplusG pyIsSpace]),
         mlit "import", mplusG pyIsSpace, mgrp 2 (mplusG notNl), meolS]

/-- `^(\w+)\s*=\s*(?:Union|Optional|List|Dict|Tuple|Set|Type|Callable|Literal|TypeVar|NewType|TypedDict|Protocol)\[.+\]$`. -/
def regPyTypeAlias : M :=
  mseqs [mgrp 1 (mplusG isWordChar), mstarG pyIsSpace, mlit "=", mstarG pyIsSpace,
         malt [mlit "Union", mlit "Optional", mlit "List", mlit "Dict", mlit "Tuple",
               mlit "Set", mlit "Type", mlit "Callable", mlit "Literal", mlit "TypeVar",
               mlit "NewType", mlit "TypedDict", mlit "Protocol"],
         mlit "[", mplusG notNl, mlit "]", meolS]

/-- `^([ \t]*)@(\w+)(?:\(.*\))?$`  (decorator). -/
def regPyDecorator : M :=
  mseqs [mgrp 1 (mstarG isIndentChar), mlit "@", mgrp 2 (mplusG isWordChar),
         mopt (mseqs [mlit "(", mstarG notNl, mlit ")"]), meolS]

/-- `^([ \t]*)(?:\'\'\'|""")(.+?)(?:\'\'\'|""")`  (one-line docstring). -/
def regPyDocstring : M :=
  mseqs [mgrp 1 (mstarG isIndentChar),
         malt [mlit "'''", mlit "\"\"\""],
         mgrp 2 (mplusL notNl),
         malt [mlit "'''", mlit "\"\"\""]]

/-- `^([ \t]+)([A-Z_][A-Z0-9_]*)\s*(?:=\s*(.+))?$`  (enum value). -/
def regPyEnumVal : M :=
  mseqs [mgrp 1 (mplusG isIndentChar),
         mgrp 2 (mseq (mcls isUpperUnd) (mstarG isUpperDigUnd)),
         mstarG pyIsSpace,
         mopt (mseqs [mlit "=", mstarG pyIsSpace, mgrp 3 (mplusG notNl)]),
         meolS]

/-- `\).*:`  (searched, not anchored: signature-ending line test). -/
def regCloseParenColon : M := mseqs [mlit ")", mstarG notNl, mlit ":"]

/-- `\b(\w+)\s*\(`  (call site). -/
def regCall : M :=
  mseqs [mwb, mgrp 1 (mplusG isWordChar), mstarG pyIsSpace, mlit "("]

/-- `(?:self|cls|\w+)\.(\w+)\s*\(`  (Python method call). -/
def regPyMethodCall : M :=
  mseqs [malt [mlit "self", mlit "cls", mplusG isWordChar], mlit ".",
         mgrp 1 (mplusG isWordChar), mstarG pyIsSpace, mlit "("]

/-- `(?:this|\w+)\.(\w+)\s*\(`  (JS method call). -/
def regJsMethodCall : M :=
  mseqs [malt [mlit "this", mplusG isWordChar], mlit ".",
         mgrp 1 (mplusG isWordChar), mstarG pyIsSpace, mlit "("]

/- ============ Call-site scanners (index_utils.py lines 75-130, 889-908) ============ -/

/-- Keywords excluded by `extract_function_calls_python`. -/
def excludeKeywordsPy : List Str :=
  [chars "if", chars "elif", chars "while", chars "for", chars "with", chars "except",
   chars "def", chars "class", chars "return", chars "yield", chars "raise",
   chars "assert", chars "print", chars "len", chars "str", chars "int", chars "float",
   chars "bool", chars "list", chars "dict", chars "set", chars "tuple", chars "type",
   chars "isinstance", chars "issubclass", chars "super", chars "range",
   chars "enumerate", chars "zip", chars "map", chars "filter", chars "sorted",
   chars "reversed", chars "open", chars "input", chars "eval"]

/-- Keywords excluded by `extract_function_calls_javascript`. -/
def excludeKeywordsJs : List Str :=
  [chars "if", chars "while", chars "for", chars "switch", chars "catch",
   chars "function", chars "class", chars "return", chars "throw", chars "new",
   chars "typeof", chars "instanceof", chars "void", chars "console", chars "Array",
   chars "Object", chars "String", chars "Number", chars "Boolean", chars "Promise",
   chars "Math", chars "Date", chars "JSON", chars "parseInt", chars "parseFloat"]

/-- `extract_function_calls_python(body, all_functions)`. -/
def extractFunctionCallsPython (body : Str) (allFns : List Str) : List Str :=
  let calls := (reFinditer regCall body).foldl
    (fun acc r =>
      match grp? r 1 with
      | some name =>
        if name ∈ allFns ∧ name ∉ excludeKeywordsPy then dedupAdd acc name else acc
      | none => acc) []
  let calls := (reFinditer regPyMethodCall body).foldl
    (fun acc r =>
      match grp? r 1 with
      | some name => if name ∈ allFns then dedupAdd acc name else acc
      | none => acc) calls
  pySorted calls

/-- `extract_function_calls_javascript(body, all_functions)`. -/
def extractFunctionCallsJavascript (body : Str) (allFns : List Str) : List Str :=
  let calls := (reFinditer regCall body).foldl
    (fun acc r =>
      match grp? r 1 with
      | some name =>
        if name ∈ allFns ∧ name ∉ excludeKeywordsJs then dedupAdd acc name else acc
      | none => acc) []
  let calls := (reFinditer regJsMethodCall body).foldl
    (fun acc r =>
      match grp? r 1 with
      | some name => if name ∈ allFns then dedupAdd acc name else acc
      | none => acc) calls
  pySorted calls

/-- The four shell call-shape patterns for a known function name:
`^\s*NAME\b`, `[;&|]\s*NAME\b`, `\$\(NAME\b`, and a backtick form
(all searched with `re.MULTILINE`). -/
def shellCallHit (body : Str) (name : Str) : Bool :=
  (reSearch (mseqs [mbol, mstarG pyIsSpace, mlits name, mwb]) body).isSome ||
  (reSearch (mseqs [mcls (fun c => c = ';' || c = '&' || c = '|'), mstarG pyIsSpace,
                    mlits name, mwb]) body).isSome ||
  (reSearch (mseqs [mlit "$(", mlits name, mwb]) body).isSome ||
  (reSearch (mseqs [mlit "\x60", mlits name, mwb]) body).isSome

/-- `extract_function_calls_shell(body, all_functions)`. -/
def extractFunctionCallsShell (body : Str) (allFns : List Str) : List Str :=
  pySorted (allFns.foldl
    (fun acc name => if shellCallHit body name then dedupAdd acc name else acc) [])

/-- `re.match` wrapped into an `MRes` (span `[0, stop)`). -/
def reMatchR (m : M) (s : Str) : Option MRes :=
  (reMatch m s).map (fun r => ⟨0, r.1, r.2⟩)

/- ============ Data model: signature bundles ============

A Python dict value that is "either a bare signature string or a dict"
(function/method records) becomes `FuncData`; optional dict keys become
`Option` fields (`none` = key absent). -/

/-- A function or method record: a bare signature string, or a dict with a
mandatory `signature` and optional `doc`/`decorators`/`calls`/`called_by`. -/
inductive FuncData where
  | plain (sig : Str)
  | record (sig : Str) (doc : Option Str) (decorators : Option (List Str))
      (calls : Option (List Str)) (calledBy : Option (List Str))
deriving DecidableEq, Repr

/-- `'calls' in func_data` (and its value) — `none` for the bare-string form. -/
def FuncData.callsOf : FuncData → Option (List Str)
  | .plain _ => none
  | .record _ _ _ cs _ => cs

/-- `func_data['called_by']` when present. -/
def FuncData.calledByOf : FuncData → Option (List Str)
  | .plain _ => none
  | .record _ _ _ _ cb => cb

/-- A class record (union of the key sets used by the Python and JS
extractors; `methods` is always created, the rest are optional keys). -/
structure ClassData where
  methods : List (Str × FuncData) := []
  classConstants : Option (List (Str × Str)) := none
  staticConstants : Option (List (Str × Str)) := none
  decorators : Option (List Str) := none
  inherits : Option (List Str) := none
  extendsJs : Option Str := none
  ctype : Option Str := none
  abstract : Option Bool := none
  doc : Option Str := none
  values : Option (List Str) := none
  properties : Option (List Str) := none
deriving DecidableEq, Repr

/-- An entry of the top-level `enums` map produced by the Python extractor. -/
structure EnumData where
  values : List Str
  doc : Str
deriving DecidableEq, Repr

/-- A TypeScript interface record. -/
structure InterfaceData where
  extendsL : Option (List Str) := none
  doc : Option Str := none
deriving DecidableEq, Repr

/-- Result dict of `extract_python_signatures`: `functions`, `classes` and
`call_graph` keys always remain; the other collections are deleted when
empty (`none`). -/
structure PyBundle where
  imports : Option (List Str)
  functions : List (Str × FuncData)
  classes : List (Str × ClassData)
  constants : Option (List (Str × Str))
  vars : Option (List Str)
  typeAliases : Option (List (Str × Str))
  enums : Option (List (Str × EnumData))
  callGraph : List (Str × List Str)
deriving DecidableEq, Repr

/-- Result dict of `extract_javascript_signatures`. -/
structure JsBundle where
  imports : Option (List Str)
  functions : List (Str × FuncData)
  classes : List (Str × ClassData)
  constants : Option (List (Str × Str))
  vars : Option (List Str)
  typeAliases : Option (List (Str × Str))
  interfaces : Option (List (Str × InterfaceData))
  enums : Option (List (Str × List Str))
  callGraph : List (Str × List Str)
deriving DecidableEq, Repr

/-- Result dict of `extract_shell_signatures`. -/
structure ShellBundle where
  functions : List (Str × FuncData)
  vars : Option (List Str)
  exports : Option (List (Str × Str))
  sources : Option (List Str)
  callGraph : List (Str × List Str)
deriving DecidableEq, Repr

/- ============ extract_python_signatures (index_utils.py lines 156-537) ============ -/

/-- Value-kind inference for constants (`collection`/`str`/`number`/`value`),
shared text of the module-constant and class-constant branches. -/
def constKindPy (v : Str) : Str :=
  if strStarts v (chars "\x7b") || strStarts v (chars "[") then chars "collection"
  else if strStarts v (chars "\x27") || strStarts v (chars "\"") then chars "str"
  else if pyIsdigitStr ((v.filter (fun c => c ≠ '.')).filter (fun c => c ≠ '-')) then
    chars "number"
  else chars "value"

/-- `line.split('=', 1)[1]` (the regex that guards each use guarantees the
separator occurs). -/
def afterFirstChar (s : Str) (c : Char) : Str := (s.dropWhile (fun d => d ≠ c)).drop 1

/-- `len(line) - len(line.lstrip())`. -/
def lineIndent (line : Str) : Int :=
  (line.length : Int) - ((pyLStrip line).length : Int)

/-- Dunder methods skipped unless `__init__`. -/
def skipDunder : List Str :=
  [chars "__repr__", chars "__str__", chars "__hash__", chars "__eq__", chars "__ne__",
   chars "__lt__", chars "__le__", chars "__gt__", chars "__ge__", chars "__bool__"]

/-- Mutable state of the main line loop. -/
structure PySt where
  functions : List (Str × FuncData)
  classes : List (Str × ClassData)
  constants : List (Str × Str)
  vars : List Str
  typeAliases : List (Str × Str)
  currentClass : Option Str
  currentClassIndent : Int
  classStack : List (Str × Nat)
  pendingDecorators : List Str
deriving Repr

/-- First pass: collect every `def` name for call detection (a set; only
membership is consumed). -/
def pyAllFunctionNames (lines : List Str) : List Str :=
  lines.foldl (fun acc l =>
    match reMatchR regPyDefName l with
    | some r => dedupAdd acc ((grp? r 2).getD [])
    | none => acc) []

/-- First pass: extract imports from every line. -/
def pyCollectImports (lines : List Str) : List Str :=
  lines.foldl (fun acc l =>
    match reMatchR regPyImport (pyStrip l) with
    | some r =>
      match grp? r 1 with
      | some module => acc ++ [module]
      | none =>
        let items := (grp? r 2).getD []
        acc ++ ((splitOnChar ',' items).map (fun it => beforeFirst (pyStrip it) (chars " as ")))
    | none => acc) []

/-- `while class_stack and indent_level <= class_stack[-1][1]: class_stack.pop()`
(the stack is stored top-first). -/
def popStack : List (Str × Nat) → Nat → List (Str × Nat)
  | [], _ => []
  | (n, d) :: t, lvl => if lvl ≤ d then popStack t lvl else (n, d) :: t

/-- Signature collection across lines, fuelled: starting at line `i`, keep
appending stripped following lines until one contains `\).*:`. Returns the
collected signature and the final line index `j`.  The wrapper's fuel always
suffices. -/
def collectSigF (lines : List Str) : Nat → Str → Nat → Str × Nat
  | 0, sig, j => (sig, j)
  | fuel + 1, sig, j =>
    if j < lines.length then
      if (reSearch regCloseParenColon (lines.getD j [])).isSome then (sig, j)
      else
        let j' := j + 1
        if j' < lines.length then
          collectSigF lines fuel (sig ++ [' '] ++ pyStrip (lines.getD j' [])) j'
        else (sig, j')
    else (sig, j)

/-- Signature collection across lines. -/
def collectSig (lines : List Str) (sig : Str) (j : Nat) : Str × Nat :=
  collectSigF lines (lines.length + 1) sig j

/-- Function-body collection, fuelled: every following line strictly more
indented than the `def` line (blank lines included). -/
def collectBodyF (lines : List Str) (funcIndent : Nat) : Nat → Nat → List Str
  | 0, _ => []
  | fuel + 1, idx =>
    if idx < lines.length then
      let bl := lines.getD idx []
      if pyStrip bl = [] then bl :: collectBodyF lines funcIndent fuel (idx + 1)
      else if bl.length - (pyLStrip bl).length ≤ funcIndent then []
      else bl :: collectBodyF lines funcIndent fuel (idx + 1)
    else []

/-- Function-body collection. -/
def collectBody (lines : List Str) (idx : Nat) (funcIndent : Nat) : List Str :=
  collectBodyF lines funcIndent (lines.length + 1) idx

/-- Building one top-level `ClassRecord`: inheritance, kind classification,
decorators, one-line docstring. -/
def pyMkClassInfo (lines : List Str) (i : Nat) (pendingDecorators : List Str)
    (bases : Option Str) : ClassData :=
  let ci0 : ClassData := { methods := [], classConstants := some [] }
  let ci1 := if pendingDecorators ≠ [] then
      { ci0 with decorators := some pendingDecorators } else ci0
  let ci2 := match bases with
    | some b =>
      if b ≠ [] then
        let baseList := ((splitOnChar ',' b).map pyStrip).filter (fun x => x ≠ [])
        if baseList ≠ [] then
          let ci := { ci1 with inherits := some baseList }
          let bnl := baseList.map pyLower
          if (chars "enum") ∈ bnl ∨ bnl.any (fun x => strContains x (chars "enum")) then
            { ci with ctype := some (chars "enum") }
          else if (chars "exception") ∈ bnl ∨ (chars "error") ∈ bnl ∨
              bnl.any (fun x => strContains x (chars "exception") || strContains x (chars "error")) then
            { ci with ctype := some (chars "exception") }
          else if (chars "abc") ∈ bnl ∨ (chars "protocol") ∈ bnl then
            { ci with abstract := some true }
          else ci
        else ci1
      else ci1
    | none => ci1
  if i + 1 < lines.length then
    match reMatchR regPyDocstring (lines.getD (i + 1) []) with
    | some dr => { ci2 with doc := some (pyStrip ((grp? dr 2).getD [])) }
    | none => ci2
  else ci2

/-- The class-definition branch. -/
def pyHandleClass (lines : List Str) (i : Nat) (st : PySt) (r : MRes) : PySt :=
  let indent := (grp? r 1).getD []
  let name := (grp? r 2).getD []
  let bases := grp? r 3
  let indentLevel := indent.length
  let stack := popStack st.classStack indentLevel
  if indentLevel = 0 then
    let ci3 := pyMkClassInfo lines i st.pendingDecorators bases
    let pend : List Str := if st.pendingDecorators ≠ [] then [] else st.pendingDecorators
    { st with classes := dinsert st.classes name ci3, currentClass := some name,
              currentClassIndent := (indentLevel : Int), pendingDecorators := pend,
              classStack := (name, indentLevel) :: stack }
  else
    { st with classStack := (name, indentLevel) :: stack }

/-- Leaving the current class on dedent to a non-blank, non-comment line. -/
def pyDedent (line stripped : Str) (st : PySt) : PySt :=
  if st.currentClass.isSome ∧ stripped ≠ [] ∧ lineIndent line ≤ st.currentClassIndent ∧
      ¬strStarts stripped (chars "#") then
    { st with currentClass := none, currentClassIndent := -1 }
  else st

/-- Enum-value and class-constant branches (`some` = the line was consumed). -/
def pyEnumOrConst (line : Str) (st : PySt) : Option PySt :=
  match st.currentClass with
  | none => none
  | some cc =>
    let isEnum := ((dget? st.classes cc).map
      (fun cd => decide (cd.ctype = some (chars "enum")))).getD false
    let enumRes : Option PySt :=
      if isEnum then
        match reMatchR regPyEnumVal line with
        | some r =>
          let ind := (grp? r 1).getD []
          if (ind.length : Int) > st.currentClassIndent then
            some { st with classes := dmodify st.classes cc (fun cd =>
              { cd with values := some (cd.values.getD [] ++ [(grp? r 2).getD []]) }) }
          else none
        | none => none
      else none
    match enumRes with
    | some st' => some st'
    | none =>
      match reMatchR regPyClassConst line with
      | some r =>
        let ind := (grp? r 1).getD []
        if (ind.length : Int) > st.currentClassIndent then
          let v := pyStrip (beforeFirst ((grp? r 3).getD []) (chars "#"))
          let k := (grp? r 2).getD []
          some { st with classes := dmodify st.classes cc (fun cd =>
            { cd with classConstants := some (dinsert (cd.classConstants.getD []) k (constKindPy v)) }) }
        else none
      | none => none

/-- Class-property branch (runs without consuming the line). -/
def pyPropertyCheck (line : Str) (st : PySt) : PySt :=
  match st.currentClass with
  | none => st
  | some cc =>
    match reMatchR regPyProperty line with
    | some r =>
      let ind := (grp? r 1).getD []
      let pn := (grp? r 2).getD []
      if (ind.length : Int) > st.currentClassIndent ∧ ¬strStarts pn (chars "_") then
        { st with classes := dmodify st.classes cc (fun cd =>
          { cd with properties := some (cd.properties.getD [] ++ [pn]) }) }
      else st
    | none => st

/-- Function-body calls: collect the body lines after the signature's last
line `j` and run the call-site scanner; `None` when the body or the call
list is empty. -/
def pyBodyCalls (allNames : List Str) (lines : List Str) (j funcIndent : Nat) :
    Option (List Str) :=
  let bodyLines := collectBody lines (j + 1) funcIndent
  if bodyLines ≠ [] then
    let cs := extractFunctionCallsPython (joinSep (chars "\n") bodyLines) allNames
    if cs ≠ [] then some cs else none
  else none

/-- `func_info`: the bare signature string when no optional field was
collected, otherwise the full record. -/
def pyMkFuncInfo (signature : Str) (doc : Option Str) (decs : Option (List Str))
    (calls : Option (List Str)) : FuncData :=
  if doc.isNone ∧ decs.isNone ∧ calls.isNone then .plain signature
  else .record signature doc decs calls none

/-- `@abstractmethod` among the pending decorators marks the current class
abstract. -/
def pyAbstractStep (st : PySt) : PySt :=
  if (chars "abstractmethod") ∈ st.pendingDecorators then
    match st.currentClass with
    | some cc => { st with classes := dmodify st.classes cc (fun cd =>
        { cd with abstract := some true }) }
    | none => st
  else st

/-- Placement of the parsed function: method of the current class, module
function at indent 0, dropped otherwise. -/
def pyPlaceFunc (st : PySt) (indentLevel : Nat) (name : Str) (fd : FuncData) : PySt :=
  match st.currentClass with
  | some cc =>
    if (indentLevel : Int) > st.currentClassIndent then
      { st with classes := dmodify st.classes cc (fun cd =>
        { cd with methods := dinsert cd.methods name fd }) }
    else if indentLevel = 0 then { st with functions := dinsert st.functions name fd }
    else st
  | none =>
    if indentLevel = 0 then { st with functions := dinsert st.functions name fd }
    else st

/-- The function-definition branch.  Returns the new state and the extra
lines consumed (the loop then advances by `1 + extra`); on the success path
the trailing property check still runs against the header line, mirroring
the fall-through in the Python loop. -/
def pyHandleFunc (allNames : List Str) (lines : List Str) (i : Nat) (st : PySt)
    (line : Str) : PySt × Nat :=
  let pr := collectSig lines (pyRStrip line) i
  let fullSig := pr.1
  let j := pr.2
  if j ≥ lines.length then (st, 0)
  else match reMatchR regPyFunc fullSig with
  | none => (st, 0)
  | some cm =>
    let extra := j - i
    let indent := (grp? cm 1).getD []
    let isAsync := (grp? cm 2).isSome
    let name := (grp? cm 3).getD []
    let params := pyStrip (collapseWS ((grp? cm 4).getD []))
    let returnType := grp? cm 5
    if name ∈ skipDunder ∧ name ≠ chars "__init__" then (st, extra)
    else
      let signature0 := chars "(" ++ params ++ chars ")"
      let signature1 := match returnType with
        | some rt => signature0 ++ chars " -> " ++ pyStrip rt
        | none => signature0
      let signature := if isAsync then chars "async " ++ signature1 else signature1
      let decs := if st.pendingDecorators ≠ [] then some st.pendingDecorators else none
      let st := pyAbstractStep st
      let st := { st with pendingDecorators := [] }
      let doc := if j + 1 < lines.length then
          match reMatchR regPyDocstring (lines.getD (j + 1) []) with
          | some dr => some (pyStrip ((grp? dr 2).getD []))
          | none => none
        else none
      let funcIndent := indent.length
      let calls := pyBodyCalls allNames lines j funcIndent
      let fd := pyMkFuncInfo signature doc decs calls
      let indentLevel := indent.length
      let st := pyPlaceFunc st indentLevel name fd
      (pyPropertyCheck line st, extra)

/-- One iteration of the main loop: the branch cascade in source order.
Returns the new state and the extra lines consumed beyond this one. -/
def pyStep (allNames : List Str) (lines : List Str) (i : Nat) (st : PySt) : PySt × Nat :=
  let line := lines.getD i []
  let stripped := pyStrip line
  if strStarts stripped (chars "#") || strStarts stripped (chars "\"\"\"") ||
      strStarts stripped (chars "\x27\x27\x27") then (st, 0)
  else match reMatchR regPyDecorator line with
  | some r =>
    ({ st with pendingDecorators := st.pendingDecorators ++ [(grp? r 2).getD []] }, 0)
  | none =>
  match (if st.currentClass.isNone then reMatchR regPyTypeAlias line else none) with
  | some r =>
    ({ st with typeAliases :=
        dinsert st.typeAliases ((grp? r 1).getD []) (pyStrip (afterFirstChar line '=')) }, 0)
  | none =>
  match (if st.currentClass.isNone then reMatchR regPyModuleConst line else none) with
  | some r =>
    let v := pyStrip (beforeFirst ((grp? r 2).getD []) (chars "#"))
    ({ st with constants := dinsert st.constants ((grp? r 1).getD []) (constKindPy v) }, 0)
  | none =>
  match (if st.currentClass.isNone then reMatchR regPyModuleVar line else none) with
  | some r =>
    let vn := (grp? r 1).getD []
    ({ st with vars :=
        if vn ∉ st.vars ∧ ¬strStarts vn (chars "_") then st.vars ++ [vn]
        else st.vars }, 0)
  | none =>
  match reMatchR regPyClass line with
  | some r => (pyHandleClass lines i st r, 0)
  | none =>
  let st := pyDedent line stripped st
  match pyEnumOrConst line st with
  | some st' => (st', 0)
  | none =>
  match reMatchR regPyFuncStart line with
  | some _ => pyHandleFunc allNames lines i st line
  | none => (pyPropertyCheck line st, 0)

/-- The main line loop, fuelled (`i` advances by at least one per
iteration, so the wrapper's fuel always suffices). -/
def pyLoopF (allNames : List Str) (lines : List Str) : Nat → Nat → PySt → PySt
  | 0, _, st => st
  | fuel + 1, i, st =>
    if i < lines.length then
      let r := pyStep allNames lines i st
      pyLoopF allNames lines fuel (i + 1 + r.2) r.1
    else st

/-- The main line loop. -/
def pyLoop (allNames : List Str) (lines : List Str) (i : Nat) (st : PySt) : PySt :=
  pyLoopF allNames lines (lines.length + 1) i st

/-- Post-processing of one class record: drop empty optional collections. -/
def pyCleanupClass (cd : ClassData) : ClassData :=
  let cd := match cd.properties with | some [] => { cd with properties := none } | _ => cd
  let cd := match cd.classConstants with
    | some [] => { cd with classConstants := none } | _ => cd
  let cd := match cd.decorators with | some [] => { cd with decorators := none } | _ => cd
  match cd.values with | some [] => { cd with values := none } | _ => cd

/-- `extract_python_signatures(content)`. -/
def extractPythonSignatures (content : Str) : PyBundle :=
  let lines := splitOnChar '\n' content
  let allNames := pyAllFunctionNames lines
  let imports := pyCollectImports lines
  let st0 : PySt := { functions := [], classes := [], constants := [], vars := [],
                      typeAliases := [], currentClass := none, currentClassIndent := -1,
                      classStack := [], pendingDecorators := [] }
  let st := pyLoop allNames lines 0 st0
  let classes1 := st.classes.map (fun kv => (kv.1, pyCleanupClass kv.2))
  let enumsToMove := (classes1.filter (fun kv => kv.2.ctype = some (chars "enum"))).map
      (fun kv => (kv.1, ({ values := kv.2.values.getD [], doc := kv.2.doc.getD [] } : EnumData)))
  let classes2 := classes1.filter (fun kv => ¬(kv.2.ctype = some (chars "enum")))
  { imports := emptyToNone imports,
    functions := st.functions,
    classes := classes2,
    constants := emptyToNone st.constants,
    vars := emptyToNone st.vars,
    typeAliases := emptyToNone st.typeAliases,
    enums := emptyToNone enumsToMove,
    callGraph := [] }

/- ============ extract_shell_signatures (index_utils.py lines 911-1166) ============ -/

/-- `^(\w+)\s*\(\)\s*\{?`. -/
def regShFunc1 : M :=
  mseqs [mgrp 1 (mplusG isWordChar), mstarG pyIsSpace, mlit "()", mstarG pyIsSpace,
         mopt (mlit "\x7b")]

/-- `^function\s+(\w+)\s*\{?`. -/
def regShFunc2 : M :=
  mseqs [mlit "function", mplusG pyIsSpace, mgrp 1 (mplusG isWordChar), mstarG pyIsSpace,
         mopt (mlit "\x7b")]

/-- `^export\s+([A-Z_][A-Z0-9_]*)(=(.*))?`. -/
def regShExport : M :=
  mseqs [mlit "export", mplusG pyIsSpace,
         mgrp 1 (mseq (mcls isUpperUnd) (mstarG isUpperDigUnd)),
         mopt (mgrp 2 (mseq (mlit "=") (mgrp 3 (mstarG notNl))))]

/-- `^([A-Z_][A-Z0-9_]*)=(.+)$`. -/
def regShVar : M :=
  mseqs [mgrp 1 (mseq (mcls isUpperUnd) (mstarG isUpperDigUnd)), mlit "=",
         mgrp 2 (mplusG notNl), meolS]

/-- `(?:source|\.)\s+`. -/
def srcPre : M := mseqs [malt [mlit "source", mlit "."], mplusG pyIsSpace]

/-- `^(?:source|\.)\s+([\'"])([^\'"]+)\1` — the back-reference is expanded
into the two possible quote alternatives. -/
def regShSource1 : M :=
  malt [mseqs [srcPre, mgrp 1 (mlit "\x27"),
               mgrp 2 (mplusG (fun c => c ≠ '\x27' && c ≠ '"')), mlit "\x27"],
        mseqs [srcPre, mgrp 1 (mlit "\""),
               mgrp 2 (mplusG (fun c => c ≠ '\x27' && c ≠ '"')), mlit "\""]]

/-- `^(?:source|\.)\s+(\$\([^)]+\)[^\s]*)`. -/
def regShSource2 : M :=
  mseqs [srcPre, mgrp 1 (mseqs [mlit "$(", mplusG (fun c => c ≠ ')'), mlit ")",
                                mstarG (fun c => !pyIsSpace c)])]

/-- `^(?:source|\.)\s+([^\s]+)`. -/
def regShSource3 : M :=
  mseqs [srcPre, mgrp 1 (mplusG (fun c => !pyIsSpace c))]

/-- `\$(\d+)`  (positional-parameter reference). -/
def regDollarNum : M := mseqs [mlit "$", mgrp 1 (mplusG isDigitCh)]

/-- `int(p)` for a digit string. -/
def natOfDigits (s : Str) : Nat := s.foldl (fun a c => a * 10 + (c.val.toNat - 48)) 0

/-- Shell extractor state. -/
structure ShSt where
  functions : List (Str × FuncData)
  vars : List Str
  exports : List (Str × Str)
  sources : List Str
deriving Repr

/-- First pass: collect both function-declaration styles (a set). -/
def shAllFunctionNames (lines : List Str) : List Str :=
  lines.foldl (fun acc l =>
    let acc := match reMatchR regShFunc1 l with
      | some r => dedupAdd acc ((grp? r 1).getD [])
      | none => acc
    match reMatchR regShFunc2 l with
    | some r => dedupAdd acc ((grp? r 1).getD [])
    | none => acc) []

/-- Add `$N` references of one raw line to the collected parameter list. -/
def shAddParams (params : List Nat) (rawLine : Str) : List Nat :=
  (reFinditer regDollarNum rawLine).foldl
    (fun ps r =>
      let n := natOfDigits ((grp? r 1).getD [])
      if n > 0 ∧ n ∉ ps then ps ++ [n] else ps) params

/-- Parameter scan over the 20-line lookahead window, fuelled: brace
counting on stripped lines, `$N` collection on raw lines once inside the
body; the closing-brace break fires before that line's parameters are
collected. -/
def shParamScanF (lines : List Str) (stop : Nat) : Nat → Nat → Int → Bool →
    List Nat → List Nat
  | 0, _, _, _, params => params
  | fuel + 1, j, bc, inBody, params =>
    if j < stop then
      let lc := pyStrip (lines.getD j [])
      let bc1 := if '\x7b' ∈ lc then bc + (countChar lc '\x7b' : Int) else bc
      let inB := inBody || '\x7b' ∈ lc
      let step2 := fun (bc2 : Int) =>
        shParamScanF lines stop fuel (j + 1) bc2 inB
          (if inB then shAddParams params (lines.getD j []) else params)
      if '\x7d' ∈ lc then
        let bc2 := bc1 - (countChar lc '\x7d' : Int)
        if bc2 ≤ 0 then params else step2 bc2
      else step2 bc1
    else params

/-- Parameter scan over the 20-line lookahead window. -/
def shParamScan (lines : List Str) (stop j : Nat) (bc : Int) (inBody : Bool)
    (params : List Nat) : List Nat :=
  shParamScanF lines stop (stop + 1) j bc inBody params

/-- Body collection, fuelled: brace counting on raw lines; the closing-brace
line is appended before the break fires. -/
def shBodyScanF (lines : List Str) : Nat → Nat → Int → Bool → List Str → List Str
  | 0, _, _, _, acc => acc
  | fuel + 1, j, bc, inBody, acc =>
    if j < lines.length then
      let lc := lines.getD j []
      let bc1 := if '\x7b' ∈ lc then bc + (countChar lc '\x7b' : Int) else bc
      let inB := inBody || '\x7b' ∈ lc
      let acc1 := if inB then acc ++ [lc] else acc
      if '\x7d' ∈ lc then
        let bc2 := bc1 - (countChar lc '\x7d' : Int)
        if bc2 ≤ 0 then acc1 else shBodyScanF lines fuel (j + 1) bc2 inB acc1
      else shBodyScanF lines fuel (j + 1) bc1 inB acc1
    else acc

/-- Body collection by brace counting. -/
def shBodyScan (lines : List Str) (j : Nat) (bc : Int) (inBody : Bool)
    (acc : List Str) : List Str :=
  shBodyScanF lines (lines.length + 1) j bc inBody acc

/-- `'($1 ${2})'`-style inferred signature from the referenced parameters. -/
def shSignature (params : List Nat) : Str :=
  if params ≠ [] then
    let maxParam := params.foldl max 0
    let pieces := (List.range maxParam).map (fun k =>
      if k + 1 = 1 then chars "$1"
      else chars "$\x7b" ++ (toString (k + 1)).data ++ chars "\x7d")
    chars "(" ++ joinSep (chars " ") pieces ++ chars ")"
  else chars "()"

/-- Shell function-body calls: scan the body and run the call scanner;
`None` when the body or the call list is empty. -/
def shBodyCalls (allNames : List Str) (lines : List Str) (i : Nat) : Option (List Str) :=
  let bodyLines := shBodyScan lines (i + 1) 0 false []
  if bodyLines ≠ [] then
    let cs := extractFunctionCallsShell (joinSep (chars "\n") bodyLines) allNames
    if cs ≠ [] then some cs else none
  else none

/-- Shell `func_info`: bare signature string or the full record. -/
def shMkFuncInfo (signature : Str) (doc : Option Str) (calls : Option (List Str)) :
    FuncData :=
  if calls.isNone ∧ doc.isNone then .plain signature
  else .record signature doc none calls none

/-- The shared body of the two function-declaration branches (the Python
code repeats this text verbatim in both). -/
def shHandleFunc (allNames : List Str) (lines : List Str) (i : Nat) (st : ShSt)
    (funcName : Str) : ShSt :=
  let doc : Option Str :=
    if i > 0 ∧ strStarts (pyStrip (lines.getD (i - 1) [])) (chars "#") then
      some (pyStrip ((pyStrip (lines.getD (i - 1) [])).drop 1))
    else none
  let params := shParamScan lines (min (i + 20) lines.length) (i + 1) 0 false []
  let signature := shSignature params
  let calls := shBodyCalls allNames lines i
  let fd := shMkFuncInfo signature doc calls
  { st with functions := dinsert st.functions funcName fd }

/-- One iteration of the shell line loop. -/
def shStep (allNames : List Str) (lines : List Str) (i : Nat) (st : ShSt) : ShSt :=
  let line := lines.getD i []
  let stripped := pyStrip line
  if stripped = [] ∨ strStarts stripped (chars "#!") then st
  else match reMatchR regShFunc1 stripped with
  | some r => shHandleFunc allNames lines i st ((grp? r 1).getD [])
  | none =>
  match reMatchR regShFunc2 stripped with
  | some r => shHandleFunc allNames lines i st ((grp? r 1).getD [])
  | none =>
  match reMatchR regShExport stripped with
  | some r =>
    let varName := (grp? r 1).getD []
    let varValue : Option Str := match grp? r 3 with
      | some v => if v ≠ [] then some v else none
      | none => none
    (match varValue with
     | some v =>
       let kind := if strStarts v (chars "\x27") || strStarts v (chars "\"") then chars "str"
         else if pyIsdigitStr v then chars "number"
         else chars "value"
       { st with exports := dinsert st.exports varName kind }
     | none => st)
  | none =>
  match reMatchR regShVar stripped with
  | some r =>
    let varName := (grp? r 1).getD []
    if ¬dmem st.exports varName ∧ varName ∉ st.vars then
      { st with vars := st.vars ++ [varName] }
    else st
  | none =>
  -- source/dot includes: three patterns tried in order, first match wins
  let srcHit : Option Str :=
    match reMatchR regShSource1 stripped with
    | some r => some ((grp? r 2).getD [])
    | none =>
      match reMatchR regShSource2 stripped with
      | some r => some ((grp? r 1).getD [])
      | none =>
        match reMatchR regShSource3 stripped with
        | some r => some ((grp? r 1).getD [])
        | none => none
  match srcHit with
  | some f =>
    let f := pyStrip f
    if f ≠ [] ∧ f ∉ st.sources then { st with sources := st.sources ++ [f] } else st
  | none => st

/-- The shell line loop, fuelled. -/
def shLoopF (allNames : List Str) (lines : List Str) : Nat → Nat → ShSt → ShSt
  | 0, _, st => st
  | fuel + 1, i, st =>
    if i < lines.length then
      shLoopF allNames lines fuel (i + 1) (shStep allNames lines i st)
    else st

/-- The shell line loop. -/
def shLoop (allNames : List Str) (lines : List Str) (i : Nat) (st : ShSt) : ShSt :=
  shLoopF allNames lines (lines.length + 1) i st

/-- `extract_shell_signatures(content)`. -/
def extractShellSignatures (content : Str) : ShellBundle :=
  let lines := splitOnChar '\n' content
  let allNames := shAllFunctionNames lines
  let st := shLoop allNames lines 0 { functions := [], vars := [], exports := [], sources := [] }
  { functions := st.functions,
    vars := emptyToNone st.vars,
    exports := emptyToNone st.exports,
    sources := emptyToNone st.sources,
    callGraph := [] }

/- ============ extract_javascript_signatures (index_utils.py lines 540-886) ============ -/

/-- ASCII `[a-z]`. -/
def isLowerAZ (c : Char) : Bool := 'a' ≤ c && c ≤ 'z'

/-- `'`, `"` (the `[\'"]` class). -/
def isQuote (c : Char) : Bool := c = '\x27' || c = '"'

/-- `(?:async\s+)?`. -/
def optAsync : M := mopt (mseqs [mlit "async", mplusG pyIsSpace])

/-- `(?:export\s+)?`. -/
def optExport : M := mopt (mseqs [mlit "export", mplusG pyIsSpace])

/-- `(?:async\s+)?function\s+(\w+)`  (names pass a). -/
def regJsFnName1 : M :=
  mseqs [optAsync, mlit "function", mplusG pyIsSpace, mgrp 1 (mplusG isWordChar)]

/-- `(?:const|let|var)\s+(\w+)\s*=\s*(?:async\s+)?\(`  (names pass b). -/
def regJsFnName2 : M :=
  mseqs [malt [mlit "const", mlit "let", mlit "var"], mplusG pyIsSpace,
         mgrp 1 (mplusG isWordChar), mstarG pyIsSpace, mlit "=", mstarG pyIsSpace,
         optAsync, mlit "("]

/-- `(\w+)\s*\([^)]*\)\s*{`  (names pass c). -/
def regJsFnName3 : M :=
  mseqs [mgrp 1 (mplusG isWordChar), mstarG pyIsSpace, mlit "(",
         mstarG (fun c => c ≠ ')'), mlit ")", mstarG pyIsSpace, mlit "\x7b"]

/-- `import\s+(?:([^{}\s]+)|{([^}]+)}|\*\s+as\s+(\w+))\s+from\s+[\'"]([^\'"]+)[\'"]`. -/
def regJsImport : M :=
  mseqs [mlit "import", mplusG pyIsSpace,
         malt [mgrp 1 (mplusG (fun c => c ≠ '\x7b' && c ≠ '\x7d' && !pyIsSpace c)),
               mseqs [mlit "\x7b", mgrp 2 (mplusG (fun c => c ≠ '\x7d')), mlit "\x7d"],
               mseqs [mlit "*", mplusG pyIsSpace, mlit "as", mplusG pyIsSpace,
                      mgrp 3 (mplusG isWordChar)]],
         mplusG pyIsSpace, mlit "from", mplusG pyIsSpace,
         mcls isQuote, mgrp 4 (mplusG (fun c => !isQuote c)), mcls isQuote]

/-- `(?:const|let|var)\s+(?:{[^}]+}|\w+)\s*=\s*require\s*\([\'"]([^\'"]+)[\'"]\)`. -/
def regJsRequire : M :=
  mseqs [malt [mlit "const", mlit "let", mlit "var"], mplusG pyIsSpace,
         malt [mseqs [mlit "\x7b", mplusG (fun c => c ≠ '\x7d'), mlit "\x7d"],
               mplusG isWordChar],
         mstarG pyIsSpace, mlit "=", mstarG pyIsSpace, mlit "require", mstarG pyIsSpace,
         mlit "(", mcls isQuote, mgrp 1 (mplusG (fun c => !isQuote c)), mcls isQuote,
         mlit ")"]

/-- `(?:export\s+)?type\s+(\w+)\s*=\s*(.+?)(?:;[\s]*(?:(?:export\s+)?(?:type|const|let|var|function|class|interface|enum)\s+|\/\/|$))`
with `re.MULTILINE | re.DOTALL` (so `.` spans lines and `$` is end-of-line). -/
def regJsTypeAlias : M :=
  let term := mseqs [mlit ";", mstarG pyIsSpace,
    malt [mseqs [optExport,
                 malt [mlit "type", mlit "const", mlit "let", mlit "var", mlit "function",
                       mlit "class", mlit "interface", mlit "enum"],
                 mplusG pyIsSpace],
          mlit "//", meolM]]
  mseqs [optExport, mlit "type", mplusG pyIsSpace, mgrp 1 (mplusG isWordChar),
         mstarG pyIsSpace, mlit "=", mstarG pyIsSpace,
         mgrp 2 (mplusL (fun _ => true)), term]

/-- `(?:export\s+)?interface\s+(\w+)(?:\s+extends\s+([^{]+))?\s*{`. -/
def regJsInterface : M :=
  mseqs [optExport, mlit "interface", mplusG pyIsSpace, mgrp 1 (mplusG isWordChar),
         mopt (mseqs [mplusG pyIsSpace, mlit "extends", mplusG pyIsSpace,
                      mgrp 2 (mplusG (fun c => c ≠ '\x7b'))]),
         mstarG pyIsSpace, mlit "\x7b"]

/-- `/\*\*\s*\n?\s*\*?\s*([^@\n]+)`  (first JSDoc line, searched in a prefix). -/
def regJsDoc : M :=
  mseqs [mlit "/**", mstarG pyIsSpace, mopt (mlit "\n"), mstarG pyIsSpace,
         mopt (mlit "*"), mstarG pyIsSpace,
         mgrp 1 (mplusG (fun c => c ≠ '@' && c ≠ '\n'))]

/-- `(?:export\s+)?enum\s+(\w+)\s*{`. -/
def regJsEnum : M :=
  mseqs [optExport, mlit "enum", mplusG pyIsSpace, mgrp 1 (mplusG isWordChar),
         mstarG pyIsSpace, mlit "\x7b"]

/-- `(\w+)\s*(?:=\s*[^,\n]+)?`  (enum values, via findall). -/
def regJsEnumVal : M :=
  mseqs [mgrp 1 (mplusG isWordChar), mstarG pyIsSpace,
         mopt (mseqs [mlit "=", mstarG pyIsSpace,
                      mplusG (fun c => c ≠ ',' && c ≠ '\n')])]

/-- `(?:export\s+)?const\s+([A-Z_][A-Z0-9_]*)\s*=\s*([^;]+)`. -/
def regJsConst : M :=
  mseqs [optExport, mlit "const", mplusG pyIsSpace,
         mgrp 1 (mseq (mcls isUpperUnd) (mstarG isUpperDigUnd)),
         mstarG pyIsSpace, mlit "=", mstarG pyIsSpace, mgrp 2 (mplusG (fun c => c ≠ ';'))]

/-- `(?:export\s+)?(?:let|const)\s+([a-z]\w*)\s*(?::\s*\w+)?\s*=`. -/
def regJsVar : M :=
  mseqs [optExport, malt [mlit "let", mlit "const"], mplusG pyIsSpace,
         mgrp 1 (mseq (mcls isLowerAZ) (mstarG isWordChar)), mstarG pyIsSpace,
         mopt (mseqs [mlit ":", mstarG pyIsSpace, mplusG isWordChar]),
         mstarG pyIsSpace, mlit "="]

/-- `(?:export\s+)?class\s+(\w+)(?:\s+extends\s+(\w+))?`. -/
def regJsClass : M :=
  mseqs [optExport, mlit "class", mplusG pyIsSpace, mgrp 1 (mplusG isWordChar),
         mopt (mseqs [mplusG pyIsSpace, mlit "extends", mplusG pyIsSpace,
                      mgrp 2 (mplusG isWordChar)])]

/-- `static\s+([A-Z_][A-Z0-9_]*)\s*=\s*([^;]+)`. -/
def regJsStaticConst : M :=
  mseqs [mlit "static", mplusG pyIsSpace,
         mgrp 1 (mseq (mcls isUpperUnd) (mstarG isUpperDigUnd)),
         mstarG pyIsSpace, mlit "=", mstarG pyIsSpace, mgrp 2 (mplusG (fun c => c ≠ ';'))]

/-- `^\s*(async\s+)?(\w+)\s*\((.*?)\)\s*(?::\s*([^{]+))?\s*{` (MULTILINE). -/
def regJsMethod1 : M :=
  mseqs [mbol, mstarG pyIsSpace, mopt (mgrp 1 (mseqs [mlit "async", mplusG pyIsSpace])),
         mgrp 2 (mplusG isWordChar), mstarG pyIsSpace, mlit "(", mgrp 3 (mstarL notNl),
         mlit ")", mstarG pyIsSpace,
         mopt (mseqs [mlit ":", mstarG pyIsSpace, mgrp 4 (mplusG (fun c => c ≠ '\x7b'))]),
         mstarG pyIsSpace, mlit "\x7b"]

/-- `^\s*(\w+)\s*=\s*(?:async\s+)?\(([^)]*)\)\s*(?::\s*([^=]+))?\s*=>` (MULTILINE). -/
def regJsMethod2 : M :=
  mseqs [mbol, mstarG pyIsSpace, mgrp 1 (mplusG isWordChar), mstarG pyIsSpace, mlit "=",
         mstarG pyIsSpace, optAsync, mlit "(", mgrp 2 (mstarG (fun c => c ≠ ')')),
         mlit ")", mstarG pyIsSpace,
         mopt (mseqs [mlit ":", mstarG pyIsSpace, mgrp 3 (mplusG (fun c => c ≠ '='))]),
         mstarG pyIsSpace, mlit "=>"]

/-- `^\s*(constructor)\s*\(([^)]*)\)\s*{` (MULTILINE). -/
def regJsMethod3 : M :=
  mseqs [mbol, mstarG pyIsSpace, mgrp 1 (mlit "constructor"), mstarG pyIsSpace, mlit "(",
         mgrp 2 (mstarG (fun c => c ≠ ')')), mlit ")", mstarG pyIsSpace, mlit "\x7b"]

/-- `(?:export\s+)?(?:async\s+)?function\s+(\w+)\s*(?:<[^>]+>)?\s*\(([^)]*)\)(?:\s*:\s*([^{]+))?`. -/
def regJsFunc1 : M :=
  mseqs [optExport, optAsync, mlit "function", mplusG pyIsSpace,
         mgrp 1 (mplusG isWordChar), mstarG pyIsSpace,
         mopt (mseqs [mlit "<", mplusG (fun c => c ≠ '>'), mlit ">"]), mstarG pyIsSpace,
         mlit "(", mgrp 2 (mstarG (fun c => c ≠ ')')), mlit ")",
         mopt (mseqs [mstarG pyIsSpace, mlit ":", mstarG pyIsSpace,
                      mgrp 3 (mplusG (fun c => c ≠ '\x7b'))])]

/-- `(?:export\s+)?const\s+(\w+)\s*(?::\s*[^=]+)?\s*=\s*(?:async\s+)?\(([^)]*)\)\s*(?::\s*([^=]+))?\s*=>`. -/
def regJsFunc2 : M :=
  mseqs [optExport, mlit "const", mplusG pyIsSpace, mgrp 1 (mplusG isWordChar),
         mstarG pyIsSpace,
         mopt (mseqs [mlit ":", mstarG pyIsSpace, mplusG (fun c => c ≠ '=')]),
         mstarG pyIsSpace, mlit "=", mstarG pyIsSpace, optAsync,
         mlit "(", mgrp 2 (mstarG (fun c => c ≠ ')')), mlit ")", mstarG pyIsSpace,
         mopt (mseqs [mlit ":", mstarG pyIsSpace, mgrp 3 (mplusG (fun c => c ≠ '='))]),
         mstarG pyIsSpace, mlit "=>"]

/-- JS value-kind inference (like Python's, with the backtick as a string quote). -/
def constKindJs (v : Str) : Str :=
  if strStarts v (chars "\x7b") || strStarts v (chars "[") then chars "collection"
  else if strStarts v (chars "\x27") || strStarts v (chars "\"") ||
      strStarts v (chars "\x60") then chars "str"
  else if pyIsdigitStr ((v.filter (fun c => c ≠ '.')).filter (fun c => c ≠ '-')) then
    chars "number"
  else chars "value"

/-- Class-body bounds: brace counting from the end of the class header; the
first `{` sets `in_class`; the scan breaks when the count returns to zero.
Without a break, `end_pos` keeps its initial value (the match start). -/
def jsClassEndF (content : Str) (dflt : Nat) : Nat → Nat → Int → Bool → Nat
  | 0, _, _, _ => dflt
  | fuel + 1, i, bc, inClass =>
    if i < content.length then
      let ch := content.getD i ' '
      if ch = '\x7b' then jsClassEndF content dflt fuel (i + 1) (bc + 1) true
      else if ch = '\x7d' then
        let bc' := bc - 1
        if bc' = 0 ∧ inClass then i else jsClassEndF content dflt fuel (i + 1) bc' inClass
      else jsClassEndF content dflt fuel (i + 1) bc inClass
    else dflt

/-- Class-body end (see `jsClassEndF`; the wrapper's fuel always suffices). -/
def jsClassEnd (content : Str) (i : Nat) (bc : Int) (inClass : Bool) (dflt : Nat) : Nat :=
  jsClassEndF content dflt (content.length + 1) i bc inClass

def jsEnumEndF (content : Str) (dflt : Nat) : Nat → Nat → Int → Nat
  | 0, _, _ => dflt
  | fuel + 1, i, bc =>
    if i < content.length then
      let ch := content.getD i ' '
      if ch = '\x7b' then jsEnumEndF content dflt fuel (i + 1) (bc + 1)
      else if ch = '\x7d' then
        let bc' := bc - 1
        if bc' = 0 then i else jsEnumEndF content dflt fuel (i + 1) bc'
      else jsEnumEndF content dflt fuel (i + 1) bc
    else dflt

/-- Enum-body end: brace count starts at 1 just after the opening `{`. -/
def jsEnumEnd (content : Str) (i : Nat) (bc : Int) (dflt : Nat) : Nat :=
  jsEnumEndF content dflt (content.length + 1) i bc

def jsTABraceEndF (content : Str) (startPos : Nat) : Nat → Nat → Int → Nat
  | 0, _, _ => startPos
  | fuel + 1, i, bc =>
    if i < content.length then
      let ch := content.getD i ' '
      if ch = '\x7b' then jsTABraceEndF content startPos fuel (i + 1) (bc + 1)
      else if ch = '\x7d' then
        let bc' := bc - 1
        if bc' = 0 then i + 1 else jsTABraceEndF content startPos fuel (i + 1) bc'
      else jsTABraceEndF content startPos fuel (i + 1) bc
    else startPos

/-- Type-alias brace repair: from `match.start(2)`, find the position one
past the `}` that balances the first `{`; the start itself when the braces
never balance. -/
def jsTABraceEnd (content : Str) (i : Nat) (bc : Int) (startPos : Nat) : Nat :=
  jsTABraceEndF content startPos (content.length + 1) i bc

def jsBodyEndF (content : Str) (stop : Nat) (dflt : Nat) : Nat → Nat → Int → Nat
  | 0, _, _ => dflt
  | fuel + 1, i, bc =>
    if i < stop ∧ i < content.length then
      let ch := content.getD i ' '
      if ch = '\x7b' then jsBodyEndF content stop dflt fuel (i + 1) (bc + 1)
      else if ch = '\x7d' then
        let bc' := bc - 1
        if bc' = 0 then i else jsBodyEndF content stop dflt fuel (i + 1) bc'
      else jsBodyEndF content stop dflt fuel (i + 1) bc
    else dflt

/-- Method/function body end: brace count starts at 1 after the opening `{`;
the scan window is capped (`3000` inside classes, `5000` at file scope). -/
def jsBodyEnd (content : Str) (i stop : Nat) (bc : Int) (dflt : Nat) : Nat :=
  jsBodyEndF content stop dflt (stop + 1) i bc

/-- JSDoc lookup in `content[:upto]` (first match in the prefix). -/
def jsDocIn (content : Str) (upto : Nat) : Option Str :=
  (reSearch regJsDoc (sliceStr content 0 upto)).map
    (fun r => pyStrip ((grp? r 1).getD []))

/-- Method-body call extraction shared by methods and standalone functions:
find the first `{` within 100 characters of the match end, brace-scan at
most `cap` characters, and run the JS call scanner over the body. -/
def jsCallsAfter (text : Str) (matchEnd : Nat) (cap : Nat) (allFns : List Str) :
    Option (List Str) :=
  match strFindFrom text '\x7b' matchEnd with
  | some bracePos =>
    if bracePos - matchEnd < 100 then
      let bodyStart := bracePos + 1
      let bodyEnd := jsBodyEnd text bodyStart (min text.length (bodyStart + cap)) 1 bodyStart
      if bodyEnd > bodyStart then
        let body := sliceStr text bodyStart bodyEnd
        let cs := extractFunctionCallsJavascript body allFns
        if cs ≠ [] then some cs else none
      else none
    else none
  | none => none

/-- The signature string of a JS method or function. -/
def jsSignature (group0 params : Str) (rtype : Option Str) : Str :=
  let params := pyStrip (collapseWS params)
  let s := chars "(" ++ params ++ chars ")"
  let s := match rtype with
    | some rt => s ++ chars ": " ++ pyStrip rt
    | none => s
  if strContains group0 (chars "async") then chars "async " ++ s else s

/-- Method names skipped inside classes. -/
def jsSkipMethodNames : List Str :=
  [chars "get", chars "set", chars "if", chars "for", chars "while", chars "switch",
   chars "catch", chars "try"]

/-- `method_info['signature'] = sig` plus the string-vs-dict storage choice. -/
def jsMkFd (sig : Str) (calls : Option (List Str)) : FuncData :=
  match calls with
  | some cs => .record sig none none (some cs) none
  | none => .plain sig

/-- `result['classes'][class_name]['methods'][method_name] = ...`. -/
def jsAddMethod (cls : List (Str × ClassData)) (className mname : Str) (fd : FuncData) :
    List (Str × ClassData) :=
  dmodify cls className (fun cd => { cd with methods := dinsert cd.methods mname fd })

/-- Method pattern 1 (`name(params) {`) over one class body. -/
def jsMethodStep1 (classContent : Str) (allFns : List Str) (className : Str)
    (cls : List (Str × ClassData)) (r : MRes) : List (Str × ClassData) :=
  let mname := (grp? r 2).getD []
  if mname ∈ jsSkipMethodNames then cls
  else
    let g0 := sliceStr classContent r.start r.stop
    let sig := jsSignature g0 ((grp? r 3).getD []) (grp? r 4)
    jsAddMethod cls className mname (jsMkFd sig (jsCallsAfter classContent r.stop 3000 allFns))

/-- Method pattern 2 (`name = (params) =>`) over one class body. -/
def jsMethodStep2 (classContent : Str) (allFns : List Str) (className : Str)
    (cls : List (Str × ClassData)) (r : MRes) : List (Str × ClassData) :=
  let mname := (grp? r 1).getD []
  if mname ∈ jsSkipMethodNames then cls
  else
    let g0 := sliceStr classContent r.start r.stop
    let sig := jsSignature g0 ((grp? r 2).getD []) (grp? r 3)
    jsAddMethod cls className mname (jsMkFd sig (jsCallsAfter classContent r.stop 3000 allFns))

/-- Method pattern 3 (`constructor(params) {`), stored as `__init__`. -/
def jsMethodStep3 (classContent : Str) (allFns : List Str) (className : Str)
    (cls : List (Str × ClassData)) (r : MRes) : List (Str × ClassData) :=
  let g0 := sliceStr classContent r.start r.stop
  let sig := jsSignature g0 ((grp? r 2).getD []) none
  jsAddMethod cls className (chars "__init__")
    (jsMkFd sig (jsCallsAfter classContent r.stop 3000 allFns))

/-- `static CONST = ...` collection over one class body. -/
def jsStaticStep (className : Str) (cls : List (Str × ClassData)) (r : MRes) :
    List (Str × ClassData) :=
  let cname := (grp? r 1).getD []
  let kind := constKindJs (pyStrip ((grp? r 2).getD []))
  dmodify cls className (fun cd =>
    { cd with staticConstants := some (dinsert (cd.staticConstants.getD []) cname kind) })

/-- Per-class method and static-constant extraction. -/
def jsClassContentStep (content : Str) (allFns : List Str)
    (cls : List (Str × ClassData)) (kv : Str × (Nat × Nat)) : List (Str × ClassData) :=
  let className := kv.1
  let classContent := sliceStr content kv.2.1 kv.2.2
  let cls := (reFinditer regJsMethod1 classContent).foldl
    (jsMethodStep1 classContent allFns className) cls
  let cls := (reFinditer regJsMethod2 classContent).foldl
    (jsMethodStep2 classContent allFns className) cls
  let cls := (reFinditer regJsMethod3 classContent).foldl
    (jsMethodStep3 classContent allFns className) cls
  (reFinditer regJsStaticConst classContent).foldl (jsStaticStep className) cls

/-- Building one JS `ClassRecord`: `extends`, exception classification and
preceding JSDoc line. -/
def jsMkClassInfo (content : Str) (startPos : Nat) (extends? : Option Str) : ClassData :=
  let ci0 : ClassData := { methods := [], staticConstants := some [] }
  let ci1 := match extends? with
    | some e =>
      let ci := { ci0 with extendsJs := some e }
      if pyLower e = chars "error" ∨ pyLower e = chars "exception" ∨
          strContains (pyLower e) (chars "error") then
        { ci with ctype := some (chars "exception") }
      else ci
    | none => ci0
  match jsDocIn content startPos with
  | some d => { ci1 with doc := some d }
  | none => ci1

/-- One `class` match: record its body boundary and its class record. -/
def jsClassScanStep (content : Str)
    (acc : List (Str × (Nat × Nat)) × List (Str × ClassData)) (r : MRes) :
    List (Str × (Nat × Nat)) × List (Str × ClassData) :=
  let name := (grp? r 1).getD []
  let startPos := r.start
  let endPos := jsClassEnd content r.stop 0 false startPos
  (dinsert acc.1 name (startPos, endPos),
   dinsert acc.2 name (jsMkClassInfo content startPos (grp? r 2)))

/-- One standalone-function match (used for both function patterns); matches
starting inside a class boundary are skipped. -/
def jsFnStep (content : Str) (classPositions : List (Str × (Nat × Nat)))
    (allFns : List Str) (fns : List (Str × FuncData)) (r : MRes) :
    List (Str × FuncData) :=
  let fname := (grp? r 1).getD []
  if classPositions.any (fun kv => kv.2.1 ≤ r.start ∧ r.start ≤ kv.2.2) then fns
  else
    let g0 := sliceStr content r.start r.stop
    let sig := jsSignature g0 ((grp? r 2).getD []) (grp? r 3)
    dinsert fns fname (jsMkFd sig (jsCallsAfter content r.stop 5000 allFns))

/-- Per-class clean-up: drop an empty `static_constants` collection. -/
def jsCleanupClass (cd : ClassData) : ClassData :=
  match cd.staticConstants with
  | some [] => { cd with staticConstants := none }
  | _ => cd

/-- `extract_javascript_signatures(content)`. -/
def extractJavascriptSignatures (content : Str) : JsBundle :=
  -- first pass: permissive collection of every plausible function name
  let allFns := (reFinditer regJsFnName1 content).foldl
    (fun acc r => dedupAdd acc ((grp? r 1).getD [])) []
  let allFns := (reFinditer regJsFnName2 content).foldl
    (fun acc r => dedupAdd acc ((grp? r 1).getD [])) allFns
  let allFns := (reFinditer regJsFnName3 content).foldl
    (fun acc r => dedupAdd acc ((grp? r 1).getD [])) allFns
  -- imports
  let imports := (reFinditer regJsImport content).foldl
    (fun acc r =>
      match grp? r 4 with
      | some module => if module ≠ [] then acc ++ [module] else acc
      | none => acc) []
  let imports := (reFinditer regJsRequire content).foldl
    (fun acc r => acc ++ [(grp? r 1).getD []]) imports
  -- type aliases, with multi-line object types repaired by brace counting
  let typeAliases := (reFinditer regJsTypeAlias content).foldl
    (fun acc r =>
      let aliasName := (grp? r 1).getD []
      let aliasType := (grp? r 2).getD []
      let cleanType := joinSep (chars " ") (pySplitWS (pyStrip aliasType))
      let cleanType :=
        if strStarts cleanType (chars "\x7b") ∧
            countChar cleanType '\x7b' > countChar cleanType '\x7d' then
          let startPos := (grpStart? r 2).getD 0
          let endPos := jsTABraceEnd content startPos 0 startPos
          if endPos > startPos then
            joinSep (chars " ") (pySplitWS (pyStrip (sliceStr content startPos endPos)))
          else cleanType
        else cleanType
      dinsert acc aliasName cleanType) []
  -- interfaces
  let interfaces := (reFinditer regJsInterface content).foldl
    (fun acc r =>
      let name := (grp? r 1).getD []
      let info : InterfaceData :=
        { extendsL := (grp? r 2).map (fun e => (splitOnChar ',' e).map pyStrip),
          doc := jsDocIn content r.start }
      dinsert acc name info) []
  -- enums
  let enums := (reFinditer regJsEnum content).foldl
    (fun acc r =>
      let name := (grp? r 1).getD []
      let startPos := r.stop
      let endPos := jsEnumEnd content startPos 1 startPos
      let body := sliceStr content startPos endPos
      let values := (reFinditer regJsEnumVal body).map (fun v => (grp? v 1).getD [])
      dinsert acc name values) []
  -- module constants and variables
  let constants := (reFinditer regJsConst content).foldl
    (fun acc r =>
      dinsert acc ((grp? r 1).getD []) (constKindJs (pyStrip ((grp? r 2).getD [])))) []
  let varList := (reFinditer regJsVar content).foldl
    (fun acc r => dedupAdd acc ((grp? r 1).getD [])) []
  -- classes with body boundaries
  let classScan := (reFinditer regJsClass content).foldl (jsClassScanStep content) ([], [])
  let classPositions := classScan.1
  let classes := classScan.2
  -- methods and static constants, per class boundary
  let classes := classPositions.foldl (jsClassContentStep content allFns) classes
  -- standalone functions (excluding anything inside a class boundary)
  let functions := (reFinditer regJsFunc1 content).foldl
    (jsFnStep content classPositions allFns) []
  let functions := (reFinditer regJsFunc2 content).foldl
    (jsFnStep content classPositions allFns) functions
  -- clean-up: drop empty optional collections
  let classes := classes.map (fun kv => (kv.1, jsCleanupClass kv.2))
  { imports := emptyToNone imports,
    functions := functions,
    classes := classes,
    constants := emptyToNone constants,
    vars := emptyToNone varList,
    typeAliases := emptyToNone typeAliases,
    interfaces := emptyToNone interfaces,
    enums := emptyToNone enums,
    callGraph := [] }

/- ============ build_call_graph (index_utils.py lines 133-153) ============ -/

/-- `build_call_graph(functions, classes)`.  `calls_map` starts empty and is
never populated; the reverse-index loop iterates over it.  The `all_funcs`
set is computed but never used afterwards; the `'methods' in class_info`
guard always holds for extractor-produced class records. -/
def buildCallGraphUtil (functions : List (Str × FuncData))
    (classes : List (Str × ClassData)) :
    (List (Str × List Str)) × (List (Str × List Str)) :=
  let callsMap : List (Str × List Str) := []
  let calledByMap : List (Str × List Str) := []
  let _allFuncs :=
    classes.foldl (fun s kv => kv.2.methods.foldl (fun s m => dedupAdd s m.1) s)
      (functions.foldl (fun s kv => dedupAdd s kv.1) [])
  let calledByMap := callsMap.foldl
    (fun cbm kv =>
      let funcName := kv.1
      if dmem callsMap funcName then
        (dgetD callsMap funcName []).foldl
          (fun cbm calledFunc =>
            let cur := dgetD cbm calledFunc []
            if funcName ∉ cur then dinsert cbm calledFunc (cur ++ [funcName]) else cbm)
          cbm
      else cbm)
    calledByMap
  (callsMap, calledByMap)

/- ============ project_index.py: escaping, file entries, graph passes ============ -/

/-- `_dsl_escape(value)` for string values
(`str(value).replace('\n', ' ').replace('\t', ' ')`; the `None` guard of the
Python function is outside the string domain modelled here). -/
def dslEscape (value : Str) : Str :=
  pyReplaceChar (pyReplaceChar value '\n' ' ') '\t' ' '

/-- One entry of `index['files']`: the base keys plus the bundle keys that
the dependency-graph and call-graph passes read (`functions`, `classes`,
`imports`; `none` = key absent, i.e. the file was not parsed).  The other
copied bundle keys are not consulted by either pass. -/
structure FileInfo where
  language : Str
  parsed : Bool
  functions : Option (List (Str × FuncData)) := none
  classes : Option (List (Str × ClassData)) := none
  imports : Option (List Str) := none
deriving DecidableEq, Repr

/-- `build_index`'s per-file step for a Python file: the bundle keys are
copied into the entry only when `extracted.get('functions') or
extracted.get('classes')` is truthy. -/
def mkFileInfoPy (lang : Str) (b : PyBundle) : FileInfo :=
  if b.functions ≠ [] ∨ b.classes ≠ [] then
    { language := lang, parsed := true, functions := some b.functions,
      classes := some b.classes, imports := b.imports }
  else { language := lang, parsed := false }

/-- Same for a JS/TS file. -/
def mkFileInfoJs (lang : Str) (b : JsBundle) : FileInfo :=
  if b.functions ≠ [] ∨ b.classes ≠ [] then
    { language := lang, parsed := true, functions := some b.functions,
      classes := some b.classes, imports := b.imports }
  else { language := lang, parsed := false }

/-- `str(Path(p).parent)` for the normalized relative paths used as index
keys: drop the last `/`-component; a single component gives `"."`. -/
def pathParent (p : Str) : Str :=
  let parts := splitOnChar '/' p
  if parts.length ≤ 1 then chars "." else joinSep (chars "/") (parts.dropLast)

/-- `str(Path(d) / r)`: an empty right side keeps `d`, an absolute right
side replaces it, and `"." / r` normalizes to `r`. -/
def pathJoin (d r : Str) : Str :=
  if r = [] then d
  else if strStarts r (chars "/") then r
  else if d = chars "." then r
  else d ++ chars "/" ++ r

/-- `Path.parent` applied `n` times (`Path('.').parent` is `'.'` again). -/
def pathParentN (d : Str) : Nat → Str
  | 0 => d
  | n + 1 => pathParentN (pathParent d) n

/-- The extensions tried when resolving a relative import. -/
def resolveExts : List Str :=
  [chars ".py", chars ".js", chars ".ts", chars ".jsx", chars ".tsx", []]

/-- The `for ext in [...]` loop: first extension whose candidate is an index
key wins; the appended dependency is the backslash-normalized candidate. -/
def findFirstExt (keys : List Str) (resolved : Str) : List Str → Option Str
  | [] => none
  | e :: rest =>
    let pf := resolved ++ e
    if pf ∈ keys ∨ pyReplaceChar pf '\\' '/' ∈ keys then
      some (pyReplaceChar pf '\\' '/')
    else findFirstExt keys resolved rest

/-- The per-import body of `build_index`'s dependency resolution
(project_index.py lines 288-316): relative imports are resolved against the
file's directory and kept only when a candidate file exists in the index;
everything else is appended verbatim. -/
def resolveOneImport (keys : List Str) (fileDir : Str) (imp : Str) : Option Str :=
  if strStarts imp (chars ".") then
    let resolved :=
      if strStarts imp (chars "./") then pathJoin fileDir (imp.drop 2)
      else if strStarts imp (chars "../") then
        let parts := splitOnChar '/' imp
        let upLevels := (parts.filter (fun p => p = chars "..")).length
        let targetDir := pathParentN fileDir upLevels
        let remaining := joinSep (chars "/") (parts.filter (fun p => ¬(p = chars "..")))
        if remaining ≠ [] then pathJoin targetDir remaining else targetDir
      else fileDir
    findFirstExt keys resolved resolveExts
  else some imp

/-- The dependency-graph pass (project_index.py lines 279-319). -/
def depPass (files : List (Str × FileInfo)) : List (Str × List Str) :=
  files.foldl
    (fun dg kv =>
      match kv.2.imports with
      | some imps =>
        if imps ≠ [] then
          let fileDir := pathParent kv.1
          let deps := imps.foldl
            (fun acc imp =>
              match resolveOneImport (dkeys files) fileDir imp with
              | some d => acc ++ [d]
              | none => acc) []
          if deps ≠ [] then dinsert dg kv.1 deps else dg
        else dg
      | none => dg) []

/-- `called_by_graph[called].append(caller)` with on-demand key creation. -/
def cbgAdd (g : List (Str × List Str)) (c caller : Str) : List (Str × List Str) :=
  match dget? g c with
  | some _ => dmodify g c (fun l => l ++ [caller])
  | none => g ++ [(c, [caller])]

/-- `for called in func_data['calls']: called_by_graph[called].append(caller)`. -/
def cbgAddCalls (g : List (Str × List Str)) (calls : List Str) (caller : Str) :
    List (Str × List Str) :=
  calls.foldl (fun cbg c => cbgAdd cbg c caller) g

/-- The accumulator of the call-graph pass: `(call_graph, called_by_graph)`. -/
abbrev CBAcc := (List (Str × List Str)) × (List (Str × List Str))

/-- Processing one module-level function record. -/
def cgFnStep (path : Str) (acc : CBAcc) (f : Str × FuncData) : CBAcc :=
  match f.2.callsOf with
  | some calls =>
    (dinsert acc.1 (path ++ chars ":" ++ f.1) calls, cbgAddCalls acc.2 calls f.1)
  | none => acc

/-- Processing one method record of class `cname`. -/
def cgMethodStep (path cname : Str) (acc : CBAcc) (m : Str × FuncData) : CBAcc :=
  match m.2.callsOf with
  | some calls =>
    (dinsert acc.1 (path ++ chars ":" ++ cname ++ chars "." ++ m.1) calls,
     cbgAddCalls acc.2 calls (cname ++ chars "." ++ m.1))
  | none => acc

/-- Processing one class record. -/
def cgClassStep (path : Str) (acc : CBAcc) (cl : Str × ClassData) : CBAcc :=
  cl.2.methods.foldl (cgMethodStep path cl.1) acc

/-- Processing one file entry: functions, then class methods. -/
def cgFileStep (acc : CBAcc) (kv : Str × FileInfo) : CBAcc :=
  let acc := match kv.2.functions with
    | some fs => fs.foldl (cgFnStep kv.1) acc
    | none => acc
  match kv.2.classes with
  | some cls => cls.foldl (cgClassStep kv.1) acc
  | none => acc

/-- First half of the call-graph pass (project_index.py lines 330-363):
forward map keyed `path:name` / `path:Class.method`, reverse map keyed by the
plain callee name with the caller recorded as the bare function name or as
`Class.method`. -/
def collectGraphs (files : List (Str × FileInfo)) : CBAcc :=
  files.foldl cgFileStep ([], [])

/-- Second half of the call-graph pass (project_index.py lines 366-397):
`called_by` is written back into the records; bare-string records are
upgraded to `{'signature', 'called_by'}` dicts.  For methods Python builds
`list(set(callers))`, whose order is unspecified; it is modelled as
first-occurrence de-duplication, and only membership is relied upon. -/
def graphWriteback (files : List (Str × FileInfo)) (cbg : List (Str × List Str)) :
    List (Str × FileInfo) :=
  files.map (fun kv =>
    let path := kv.1
    let info := kv.2
    let info := match info.functions with
      | some fs =>
        { info with functions := some (fs.map (fun (f : Str × FuncData) =>
            if dmem cbg f.1 then
              match f.2 with
              | .record sig doc dec cs _ =>
                (f.1, FuncData.record sig doc dec cs (some (dgetD cbg f.1 [])))
              | .plain sig =>
                (f.1, FuncData.record sig none none none (some (dgetD cbg f.1 [])))
            else f)) }
      | none => info
    let info := match info.classes with
      | some cls =>
        { info with classes := some (cls.map (fun (cl : Str × ClassData) =>
            (cl.1, { cl.2 with methods := cl.2.methods.map (fun (m : Str × FuncData) =>
              let fullName := cl.1 ++ chars "." ++ m.1
              if dmem cbg m.1 ∨ dmem cbg fullName then
                let callers := dgetD cbg m.1 [] ++ dgetD cbg fullName []
                if callers ≠ [] then
                  match m.2 with
                  | .record sig doc dec cs _ =>
                    (m.1, FuncData.record sig doc dec cs (some (dedupList callers)))
                  | .plain sig =>
                    (m.1, FuncData.record sig none none none (some (dedupList callers)))
                else m
              else m) }))) }
      | none => info
    (path, info))

/-- The whole call-graph pass: the finished `files` map plus the two local
graphs (`call_graph`, `called_by_graph`). -/
def graphPass (files : List (Str × FileInfo)) :
    List (Str × FileInfo) × (List (Str × List Str)) × (List (Str × List Str)) :=
  let g := collectGraphs files
  (graphWriteback files g.2, g.1, g.2)

/- ============ Verification predicates ============ -/

/-- A control character (Unicode Cc: U+0000–U+001F and U+007F–U+009F). -/
def isCtrlChar (c : Char) : Bool := c.toNat < 32 || (127 ≤ c.toNat && c.toNat ≤ 159)

/-- Every `calls` list carried by the record is ascending. -/
def GoodCalls (fd : FuncData) : Prop :=
  ∀ cs, fd.callsOf = some cs → strSortedB cs = true

/-- Every record of a function map has sorted `calls`. -/
def GoodFns (fs : List (Str × FuncData)) : Prop := ∀ f ∈ fs, GoodCalls f.2

/-- Every method record of every class has sorted `calls`. -/
def GoodClasses (cls : List (Str × ClassData)) : Prop := ∀ cl ∈ cls, GoodFns cl.2.methods

/-- Loop invariant for the Python extractor state. -/
def GoodPySt (st : PySt) : Prop := GoodFns st.functions ∧ GoodClasses st.classes

/-- `x` is recorded among the callers of `c` in the reverse graph of the
accumulator. -/
def InCbg (x c : Str) (acc : CBAcc) : Prop := x ∈ dgetD acc.2 c []

/- ============ Concrete scenario inputs ============ -/

/-- A class whose method calls a module-level function (the body of
`a.py`). -/
def c1Input : Str :=
  chars "class C:\n    def m(self):\n        helper()\ndef helper():\n    pass\n"

/-- The per-file index entries fed to the call-graph pass for `c1Input`. -/
def c1Files : List (Str × FileInfo) :=
  [(chars "a.py", mkFileInfoPy (chars "python") (extractPythonSignatures c1Input))]

/-- `a.py` defines `run` whose body calls `helper()`; `b.py` independently
defines `helper`.  `helper` is not defined in `a.py`. -/
def c2xFiles : List (Str × FileInfo) :=
  [(chars "a.py",
    mkFileInfoPy (chars "python")
      (extractPythonSignatures (chars "def run():\n    helper()\n"))),
   (chars "b.py",
    mkFileInfoPy (chars "python")
      (extractPythonSignatures (chars "def helper():\n    pass\n")))]

/-- As `c2xFiles`, but `a.py` also defines `helper`, so the per-file call
scanner records the call. -/
def c2Files : List (Str × FileInfo) :=
  [(chars "a.py",
    mkFileInfoPy (chars "python")
      (extractPythonSignatures
        (chars "def run():\n    helper()\ndef helper():\n    pass\n"))),
   (chars "b.py",
    mkFileInfoPy (chars "python")
      (extractPythonSignatures (chars "def helper():\n    pass\n")))]

/-- `a/b.py` imports `./sibling`; the index holds `a/sibling.js` but not
`a/sibling.py`. -/
def c6Files : List (Str × FileInfo) :=
  [(chars "a/b.py",
    { language := chars "python", parsed := true,
      functions := some [(chars "run", FuncData.plain (chars "()"))],
      imports := some [chars "./sibling"] }),
   (chars "a/sibling.js",
    { language := chars "javascript", parsed := true,
      functions := some [(chars "helper", FuncData.plain (chars "()"))] })]

/-- The enum scenario of the spec. -/
def c7Input : Str := chars "class Color(Enum):\n    RED = 1\n    BLUE = 2\n"

/-- Two imports in reverse alphabetical order plus a function. -/
def c8Input : Str := chars "import b\nimport a\ndef f():\n    pass\n"

/-- A body whose two callees appear unsorted in the text. -/
def c8CallsInput : Str :=
  chars "def g():\n    b()\n    a()\ndef a():\n    pass\ndef b():\n    pass\n"

/- ============ Association-list and fold lemmas ============ -/

theorem dget?_append {α : Type} (d e : List (Str × α)) (k : Str) :
    dget? (d ++ e) k = match dget? d k with | some v => some v | none => dget? e k := by
  induction d with
  | nil => simp [dget?]
  | cons hd t ih =>
    by_cases hk : hd.1 = k
    · cases hd; simp_all [dget?]
    · cases hd; simp_all [dget?]

theorem dget?_dmodify_self {α : Type} (d : List (Str × α)) (k : Str) (f : α → α) :
    dget? (dmodify d k f) k = (dget? d k).map f := by
  induction d with
  | nil => simp [dget?, dmodify]
  | cons hd t ih =>
    cases hd with
    | mk k' v =>
      by_cases hk : k' = k
      · simp [dget?, dmodify, hk]
      · simp [dget?, dmodify, hk, ih]

theorem dget?_dmodify_ne {α : Type} (d : List (Str × α)) (k k' : Str) (f : α → α)
    (h : k' ≠ k) : dget? (dmodify d k f) k' = dget? d k' := by
  induction d with
  | nil => simp [dget?, dmodify]
  | cons hd t ih =>
    cases hd with
    | mk k'' v =>
      by_cases hk : k'' = k
      · subst hk
        have : k'' ≠ k' := fun he => h he.symm
        simp [dget?, dmodify, this]
      · by_cases hk' : k'' = k'
        · simp [dget?, dmodify, hk, hk', h]
        · simp [dget?, dmodify, hk, hk', ih]

theorem foldl_pres {α β : Type} (g : β → α → β) (P : β → Prop) (l : List α)
    (hp : ∀ acc y, P acc → P (g acc y)) (a : β) (ha : P a) : P (l.foldl g a) := by
  induction l generalizing a with
  | nil => exact ha
  | cons y t ih => exact ih _ (hp _ _ ha)

theorem foldl_estab {α β : Type} (g : β → α → β) (P : β → Prop) (l : List α) (x : α)
    (hx : x ∈ l) (hest : ∀ acc, P (g acc x)) (hp : ∀ acc y, P acc → P (g acc y))
    (a : β) : P (l.foldl g a) := by
  induction l generalizing a with
  | nil => cases hx
  | cons y t ih =>
    cases hx with
    | head => exact foldl_pres g P t hp _ (hest a)
    | tail _ hmem => exact ih hmem _

/- ============ Sortedness of `sorted(...)` ============ -/

theorem strLe_total (a b : Str) : strLe a b = true ∨ strLe b a = true := by
  induction a generalizing b with
  | nil => left; rfl
  | cons x xs ih =>
    cases b with
    | nil => right; rfl
    | cons y ys =>
      rcases Nat.lt_trichotomy x.toNat y.toNat with h | h | h
      · left; simp [strLe, h]
      · have h1 : ¬x.toNat < y.toNat := by omega
        have h2 : ¬y.toNat < x.toNat := by omega
        rcases ih ys with hc | hc
        · left; simp [strLe, h1, h2, hc]
        · right; simp [strLe, h1, h2, hc]
      · right; simp [strLe, h]

theorem strSortedB_insSorted (x : Str) (l : List Str) (h : strSortedB l = true) :
    strSortedB (insSorted x l) = true := by
  induction l with
  | nil => rfl
  | cons y ys ih =>
    by_cases hle : strLe y x = true
    · rw [insSorted, if_pos hle]
      cases ys with
      | nil => simp [insSorted, strSortedB, hle]
      | cons z zs =>
        have hyz : strLe y z = true := by
          have := h; simp [strSortedB] at this; exact this.1
        have hrest : strSortedB (z :: zs) = true := by
          have := h; simp [strSortedB] at this; exact this.2
        by_cases hzx : strLe z x = true
        · have hins := ih hrest
          rw [insSorted, if_pos hzx] at hins ⊢
          simp [strSortedB, hyz, hins]
        · have hxz : strLe x z = true := (strLe_total x z).resolve_right hzx
          rw [insSorted, if_neg hzx]
          simp [strSortedB, hle, hxz, hrest]
    · have hxy : strLe x y = true := (strLe_total x y).resolve_right hle
      rw [insSorted, if_neg hle]
      simp [strSortedB, hxy, h]

theorem strSortedB_pySorted (l : List Str) : strSortedB (pySorted l) = true := by
  unfold pySorted
  induction l with
  | nil => rfl
  | cons x t ih => exact strSortedB_insSorted x _ ih

theorem sorted_extractCallsPy (body : Str) (allFns : List Str) :
    strSortedB (extractFunctionCallsPython body allFns) = true := by
  unfold extractFunctionCallsPython
  exact strSortedB_pySorted _

theorem sorted_extractCallsJs (body : Str) (allFns : List Str) :
    strSortedB (extractFunctionCallsJavascript body allFns) = true := by
  unfold extractFunctionCallsJavascript
  exact strSortedB_pySorted _

theorem sorted_extractCallsSh (body : Str) (allFns : List Str) :
    strSortedB (extractFunctionCallsShell body allFns) = true := by
  unfold extractFunctionCallsShell
  exact strSortedB_pySorted _

/- ============ Reverse call-graph lemmas (for C1) ============ -/

theorem cbgAdd_self (g : List (Str × List Str)) (c caller : Str) :
    caller ∈ dgetD (cbgAdd g c caller) c [] := by
  unfold cbgAdd
  cases hg : dget? g c with
  | some l => simp [dgetD, dget?_dmodify_self, hg]
  | none =>
    simp [dgetD, dget?_append, hg, dget?]

theorem cbgAdd_mono (g : List (Str × List Str)) (c caller c' : Str) (x : Str)
    (h : x ∈ dgetD g c' []) : x ∈ dgetD (cbgAdd g c caller) c' [] := by
  unfold cbgAdd
  cases hg : dget? g c with
  | some l =>
    by_cases hc : c' = c
    · subst hc
      simp [dgetD, hg] at h
      simp [dgetD, dget?_dmodify_self, hg, h]
    · simpa [dgetD, dget?_dmodify_ne _ _ _ _ hc] using h
  | none =>
    cases hg' : dget? g c' with
    | some l' =>
      simp [dgetD, hg'] at h
      simp [dgetD, dget?_append, hg', h]
    | none => simp [dgetD, hg'] at h

theorem cbgAddCalls_mono (calls : List Str) (g : List (Str × List Str))
    (caller c' x : Str) (h : x ∈ dgetD g c' []) :
    x ∈ dgetD (cbgAddCalls g calls caller) c' [] := by
  induction calls generalizing g with
  | nil => exact h
  | cons c t ih => exact ih _ (cbgAdd_mono g c caller c' x h)

theorem cbgAddCalls_self (calls : List Str) (g : List (Str × List Str))
    (caller c : Str) (hc : c ∈ calls) :
    caller ∈ dgetD (cbgAddCalls g calls caller) c [] := by
  induction calls generalizing g with
  | nil => cases hc
  | cons c0 t ih =>
    cases hc with
    | head =>
      exact cbgAddCalls_mono t _ caller c caller (cbgAdd_self g c caller)
    | tail _ hmem => exact ih _ hmem

theorem cgFnStep_mono (path : Str) (x c : Str) (acc : CBAcc) (f : Str × FuncData)
    (h : InCbg x c acc) : InCbg x c (cgFnStep path acc f) := by
  unfold cgFnStep
  cases hf : f.2.callsOf with
  | some calls => exact cbgAddCalls_mono calls _ _ _ _ h
  | none => exact h

theorem cgMethodStep_mono (path cname : Str) (x c : Str) (acc : CBAcc)
    (m : Str × FuncData) (h : InCbg x c acc) : InCbg x c (cgMethodStep path cname acc m) := by
  unfold cgMethodStep
  cases hm : m.2.callsOf with
  | some calls => exact cbgAddCalls_mono calls _ _ _ _ h
  | none => exact h

theorem cgClassStep_mono (path : Str) (x c : Str) (acc : CBAcc) (cl : Str × ClassData)
    (h : InCbg x c acc) : InCbg x c (cgClassStep path acc cl) := by
  unfold cgClassStep
  exact foldl_pres _ (InCbg x c) _ (fun a m hm => cgMethodStep_mono path cl.1 x c a m hm) _ h

theorem cgFileStep_mono (x c : Str) (acc : CBAcc) (kv : Str × FileInfo)
    (h : InCbg x c acc) : InCbg x c (cgFileStep acc kv) := by
  unfold cgFileStep
  have h1 : InCbg x c (match kv.2.functions with
      | some fs => fs.foldl (cgFnStep kv.1) acc
      | none => acc) := by
    cases kv.2.functions with
    | some fs => exact foldl_pres _ (InCbg x c) _ (fun a f hf => cgFnStep_mono kv.1 x c a f hf) _ h
    | none => exact h
  cases kv.2.classes with
  | some cls =>
    exact foldl_pres _ (InCbg x c) _ (fun a cl hcl => cgClassStep_mono kv.1 x c a cl hcl) _ h1
  | none => exact h1

theorem cgFnStep_estab (path fname c : Str) (fd : FuncData) (calls : List Str)
    (hc : fd.callsOf = some calls) (hcc : c ∈ calls) (acc : CBAcc) :
    InCbg fname c (cgFnStep path acc (fname, fd)) := by
  unfold cgFnStep
  simp only [hc]
  exact cbgAddCalls_self calls _ _ _ hcc

theorem cgMethodStep_estab (path cname mname c : Str) (md : FuncData) (calls : List Str)
    (hc : md.callsOf = some calls) (hcc : c ∈ calls) (acc : CBAcc) :
    InCbg (cname ++ chars "." ++ mname) c (cgMethodStep path cname acc (mname, md)) := by
  unfold cgMethodStep
  simp only [hc]
  exact cbgAddCalls_self calls _ _ _ hcc

theorem cgClassStep_estab (path cname mname c : Str) (cd : ClassData) (md : FuncData)
    (calls : List Str) (hm : (mname, md) ∈ cd.methods) (hc : md.callsOf = some calls)
    (hcc : c ∈ calls) (acc : CBAcc) :
    InCbg (cname ++ chars "." ++ mname) c (cgClassStep path acc (cname, cd)) := by
  unfold cgClassStep
  exact foldl_estab _ (InCbg (cname ++ chars "." ++ mname) c) _ (mname, md) hm
    (cgMethodStep_estab path cname mname c md calls hc hcc)
    (fun a m h => cgMethodStep_mono path cname _ _ a m h) acc

theorem cgFileStep_fn_estab (path fname c : Str) (info : FileInfo)
    (fs : List (Str × FuncData)) (fd : FuncData) (calls : List Str)
    (hfs : info.functions = some fs) (hf : (fname, fd) ∈ fs)
    (hc : fd.callsOf = some calls) (hcc : c ∈ calls) (acc : CBAcc) :
    InCbg fname c (cgFileStep acc (path, info)) := by
  unfold cgFileStep
  simp only [hfs]
  have h1 : InCbg fname c (fs.foldl (cgFnStep path) acc) :=
    foldl_estab _ (InCbg fname c) fs (fname, fd) hf
      (cgFnStep_estab path fname c fd calls hc hcc)
      (fun a f h => cgFnStep_mono path _ _ a f h) acc
  cases info.classes with
  | some cls =>
    exact foldl_pres _ (InCbg fname c) _ (fun a cl h => cgClassStep_mono path _ _ a cl h) _ h1
  | none => exact h1

theorem cgFileStep_method_estab (path cname mname c : Str) (info : FileInfo)
    (cls : List (Str × ClassData)) (cd : ClassData) (md : FuncData) (calls : List Str)
    (hcls : info.classes = some cls) (hcl : (cname, cd) ∈ cls) (hm : (mname, md) ∈ cd.methods)
    (hc : md.callsOf = some calls) (hcc : c ∈ calls) (acc : CBAcc) :
    InCbg (cname ++ chars "." ++ mname) c (cgFileStep acc (path, info)) := by
  unfold cgFileStep
  simp only [hcls]
  exact foldl_estab _ (InCbg (cname ++ chars "." ++ mname) c) cls (cname, cd) hcl
    (cgClassStep_estab path cname mname c cd md calls hm hc hcc)
    (fun a cl h => cgClassStep_mono path _ _ a cl h) _

/- ============ Sorted-calls invariants of the extractors (for C8) ============ -/

theorem GoodFns_nil : GoodFns [] := by intro f hf; cases hf

theorem GoodFns_dinsert (fs : List (Str × FuncData)) (k : Str) (v : FuncData)
    (h : GoodFns fs) (hv : GoodCalls v) : GoodFns (dinsert fs k v) := by
  induction fs with
  | nil =>
    intro f hf
    simp [dinsert] at hf
    rw [hf]
    exact hv
  | cons hd t ih =>
    cases hd with
    | mk k' v' =>
      have hh : GoodCalls v' := h (k', v') (List.mem_cons_self _ _)
      have ht : GoodFns t := fun f hf => h f (List.mem_cons_of_mem _ hf)
      by_cases hk : k' = k
      · intro f hf
        simp only [dinsert, if_pos hk, List.mem_cons] at hf
        rcases hf with hf | hf
        · rw [hf]; exact hv
        · exact ht f hf
      · intro f hf
        simp only [dinsert, if_neg hk, List.mem_cons] at hf
        rcases hf with hf | hf
        · rw [hf]; exact hh
        · exact ih ht f hf

theorem GoodClasses_dinsert (cls : List (Str × ClassData)) (k : Str) (v : ClassData)
    (h : GoodClasses cls) (hv : GoodFns v.methods) : GoodClasses (dinsert cls k v) := by
  induction cls with
  | nil =>
    intro cl hcl
    simp [dinsert] at hcl
    rw [hcl]
    exact hv
  | cons hd t ih =>
    cases hd with
    | mk k' v' =>
      have hh : GoodFns v'.methods := h (k', v') (List.mem_cons_self _ _)
      have ht : GoodClasses t := fun cl hcl => h cl (List.mem_cons_of_mem _ hcl)
      by_cases hk : k' = k
      · intro cl hcl
        simp only [dinsert, if_pos hk, List.mem_cons] at hcl
        rcases hcl with hcl | hcl
        · rw [hcl]; exact hv
        · exact ht cl hcl
      · intro cl hcl
        simp only [dinsert, if_neg hk, List.mem_cons] at hcl
        rcases hcl with hcl | hcl
        · rw [hcl]; exact hh
        · exact ih ht cl hcl

theorem GoodClasses_dmodify (cls : List (Str × ClassData)) (k : Str) (f : ClassData → ClassData)
    (h : GoodClasses cls) (hf : ∀ cd, GoodFns cd.methods → GoodFns (f cd).methods) :
    GoodClasses (dmodify cls k f) := by
  induction cls with
  | nil => intro cl hcl; cases hcl
  | cons hd t ih =>
    cases hd with
    | mk k' v' =>
      have hh : GoodFns v'.methods := h (k', v') (List.mem_cons_self _ _)
      have ht : GoodClasses t := fun cl hcl => h cl (List.mem_cons_of_mem _ hcl)
      by_cases hk : k' = k
      · intro cl hcl
        simp only [dmodify, if_pos hk, List.mem_cons] at hcl
        rcases hcl with hcl | hcl
        · rw [hcl]; exact hf v' hh
        · exact ht cl hcl
      · intro cl hcl
        simp only [dmodify, if_neg hk, List.mem_cons] at hcl
        rcases hcl with hcl | hcl
        · rw [hcl]; exact hh
        · exact ih ht cl hcl

theorem pyBodyCalls_sorted (allNames lines : List Str) (j funcIndent : Nat) :
    ∀ cs, pyBodyCalls allNames lines j funcIndent = some cs → strSortedB cs = true := by
  intro cs h
  unfold pyBodyCalls at h
  dsimp only at h
  split at h
  · split at h
    · injection h with h'
      rw [← h']
      exact sorted_extractCallsPy _ _
    · cases h
  · cases h

theorem pyMkFuncInfo_good (signature : Str) (doc : Option Str) (decs : Option (List Str))
    (calls : Option (List Str))
    (hc : ∀ cs, calls = some cs → strSortedB cs = true) :
    GoodCalls (pyMkFuncInfo signature doc decs calls) := by
  unfold pyMkFuncInfo
  split
  · intro cs h; cases h
  · intro cs h
    exact hc cs h

theorem pyMkClassInfo_methods (lines : List Str) (i : Nat) (pend : List Str)
    (bases : Option Str) : (pyMkClassInfo lines i pend bases).methods = [] := by
  unfold pyMkClassInfo
  dsimp only
  repeat' first
    | rfl
    | (dsimp only)
    | split

theorem pyCleanupClass_methods (cd : ClassData) :
    (pyCleanupClass cd).methods = cd.methods := by
  unfold pyCleanupClass
  dsimp only
  repeat' first
    | rfl
    | (dsimp only)
    | split

theorem pyHandleClass_good (lines : List Str) (i : Nat) (st : PySt) (r : MRes)
    (h : GoodPySt st) : GoodPySt (pyHandleClass lines i st r) := by
  unfold pyHandleClass
  dsimp only
  split
  · refine ⟨h.1, ?_⟩
    apply GoodClasses_dinsert _ _ _ h.2
    rw [pyMkClassInfo_methods]
    exact GoodFns_nil
  · exact h

theorem pyDedent_good (line stripped : Str) (st : PySt) (h : GoodPySt st) :
    GoodPySt (pyDedent line stripped st) := by
  unfold pyDedent
  split
  · exact h
  · exact h

theorem pyEnumOrConst_good (line : Str) (st st' : PySt) (h : GoodPySt st)
    (he : pyEnumOrConst line st = some st') : GoodPySt st' := by
  unfold pyEnumOrConst at he
  dsimp only at he
  split at he
  · cases he
  · split at he
    · rename_i st'' heq
      injection he with he'
      subst he'
      split at heq
      · split at heq
        · split at heq
          · injection heq with heq'
            rw [← heq']
            exact ⟨h.1, GoodClasses_dmodify _ _ _ h.2 (fun cd hcd => hcd)⟩
          · cases heq
        · cases heq
      · cases heq
    · split at he
      · split at he
        · injection he with he'
          rw [← he']
          exact ⟨h.1, GoodClasses_dmodify _ _ _ h.2 (fun cd hcd => hcd)⟩
        · cases he
      · cases he

theorem pyPropertyCheck_good (line : Str) (st : PySt) (h : GoodPySt st) :
    GoodPySt (pyPropertyCheck line st) := by
  unfold pyPropertyCheck
  split
  · exact h
  · split
    · dsimp only
      split
      · exact ⟨h.1, GoodClasses_dmodify _ _ _ h.2 (fun cd hcd => hcd)⟩
      · exact h
    · exact h

theorem pyAbstractStep_good (st : PySt) (h : GoodPySt st) : GoodPySt (pyAbstractStep st) := by
  unfold pyAbstractStep
  split
  · split
    · exact ⟨h.1, GoodClasses_dmodify _ _ _ h.2 (fun cd hcd => hcd)⟩
    · exact h
  · exact h

theorem pyPlaceFunc_good (st : PySt) (indentLevel : Nat) (name : Str) (fd : FuncData)
    (h : GoodPySt st) (hfd : GoodCalls fd) : GoodPySt (pyPlaceFunc st indentLevel name fd) := by
  unfold pyPlaceFunc
  split
  · split
    · exact ⟨h.1, GoodClasses_dmodify _ _ _ h.2
        (fun cd hcd => GoodFns_dinsert _ _ _ hcd hfd)⟩
    · split
      · exact ⟨GoodFns_dinsert _ _ _ h.1 hfd, h.2⟩
      · exact h
  · split
    · exact ⟨GoodFns_dinsert _ _ _ h.1 hfd, h.2⟩
    · exact h

theorem pyHandleFunc_good (allNames lines : List Str) (i : Nat) (st : PySt) (line : Str)
    (h : GoodPySt st) : GoodPySt (pyHandleFunc allNames lines i st line).1 := by
  unfold pyHandleFunc
  dsimp only
  split
  · exact h
  · split
    · exact h
    · split
      · exact h
      · apply pyPropertyCheck_good
        apply pyPlaceFunc_good
        · exact pyAbstractStep_good st h
        · exact pyMkFuncInfo_good _ _ _ _ (pyBodyCalls_sorted _ _ _ _)

theorem pyStep_good (allNames lines : List Str) (i : Nat) (st : PySt)
    (h : GoodPySt st) : GoodPySt (pyStep allNames lines i st).1 := by
  unfold pyStep
  dsimp only
  split
  · exact h
  · split
    · exact h
    · split
      · exact h
      · split
        · exact h
        · split
          · exact h
          · split
            · exact pyHandleClass_good _ _ _ _ h
            · have hd : GoodPySt (pyDedent (lines.getD i []) (pyStrip (lines.getD i [])) st) :=
                pyDedent_good _ _ _ h
              split
              · rename_i st' heq
                exact pyEnumOrConst_good _ _ _ hd heq
              · split
                · exact pyHandleFunc_good _ _ _ _ _ hd
                · exact pyPropertyCheck_good _ _ hd

theorem pyLoopF_good (allNames lines : List Str) :
    ∀ (fuel i : Nat) (st : PySt), GoodPySt st →
      GoodPySt (pyLoopF allNames lines fuel i st) := by
  intro fuel
  induction fuel with
  | zero => intro i st h; exact h
  | succ n ih =>
    intro i st h
    unfold pyLoopF
    split
    · exact ih _ _ (pyStep_good allNames lines i st h)
    · exact h

theorem extractPy_functions_good (content : Str) :
    GoodFns (extractPythonSignatures content).functions := by
  have hloop := pyLoopF_good (pyAllFunctionNames (splitOnChar '\n' content))
    (splitOnChar '\n' content) ((splitOnChar '\n' content).length + 1) 0
    { functions := [], classes := [], constants := [], vars := [],
      typeAliases := [], currentClass := none, currentClassIndent := -1,
      classStack := [], pendingDecorators := [] }
    ⟨GoodFns_nil, fun cl hcl => by cases hcl⟩
  exact hloop.1

theorem extractPy_classes_good (content : Str) :
    GoodClasses (extractPythonSignatures content).classes := by
  have hloop := pyLoopF_good (pyAllFunctionNames (splitOnChar '\n' content))
    (splitOnChar '\n' content) ((splitOnChar '\n' content).length + 1) 0
    { functions := [], classes := [], constants := [], vars := [],
      typeAliases := [], currentClass := none, currentClassIndent := -1,
      classStack := [], pendingDecorators := [] }
    ⟨GoodFns_nil, fun cl hcl => by cases hcl⟩
  intro cl hcl
  have hcl' : cl ∈ ((pyLoopF (pyAllFunctionNames (splitOnChar '\n' content))
      (splitOnChar '\n' content) ((splitOnChar '\n' content).length + 1) 0
      { functions := [], classes := [], constants := [], vars := [],
        typeAliases := [], currentClass := none, currentClassIndent := -1,
        classStack := [], pendingDecorators := [] }).classes.map
      (fun kv => (kv.1, pyCleanupClass kv.2))).filter
      (fun kv => ¬(kv.2.ctype = some (chars "enum"))) := hcl
  have hcl2 := List.mem_filter.mp hcl'
  rcases List.mem_map.mp hcl2.1 with ⟨kv0, hkv0, hkv0e⟩
  have : GoodFns kv0.2.methods := hloop.2 kv0 hkv0
  rw [← hkv0e]
  simpa [pyCleanupClass_methods] using this

/- Shell extractor invariants -/

theorem shBodyCalls_sorted (allNames lines : List Str) (i : Nat) :
    ∀ cs, shBodyCalls allNames lines i = some cs → strSortedB cs = true := by
  intro cs h
  unfold shBodyCalls at h
  dsimp only at h
  split at h
  · split at h
    · injection h with h'
      rw [← h']
      exact sorted_extractCallsSh _ _
    · cases h
  · cases h

theorem shMkFuncInfo_good (signature : Str) (doc : Option Str) (calls : Option (List Str))
    (hc : ∀ cs, calls = some cs → strSortedB cs = true) :
    GoodCalls (shMkFuncInfo signature doc calls) := by
  unfold shMkFuncInfo
  split
  · intro cs h; cases h
  · intro cs h
    exact hc cs h

theorem shHandleFunc_good (allNames lines : List Str) (i : Nat) (st : ShSt) (fn : Str)
    (h : GoodFns st.functions) : GoodFns (shHandleFunc allNames lines i st fn).functions := by
  unfold shHandleFunc
  dsimp only
  exact GoodFns_dinsert _ _ _ h
    (shMkFuncInfo_good _ _ _ (shBodyCalls_sorted allNames lines i))

theorem shStep_good (allNames lines : List Str) (i : Nat) (st : ShSt)
    (h : GoodFns st.functions) : GoodFns (shStep allNames lines i st).functions := by
  unfold shStep
  dsimp only
  split
  · exact h
  · split
    · exact shHandleFunc_good _ _ _ _ _ h
    · split
      · exact shHandleFunc_good _ _ _ _ _ h
      · split
        · split
          · exact h
          · exact h
        · split
          · split
            · exact h
            · exact h
          · split
            · split
              · exact h
              · exact h
            · exact h

theorem shLoopF_good (allNames lines : List Str) :
    ∀ (fuel i : Nat) (st : ShSt), GoodFns st.functions →
      GoodFns (shLoopF allNames lines fuel i st).functions := by
  intro fuel
  induction fuel with
  | zero => intro i st h; exact h
  | succ n ih =>
    intro i st h
    unfold shLoopF
    split
    · exact ih _ _ (shStep_good allNames lines i st h)
    · exact h

theorem extractSh_functions_good (content : Str) :
    GoodFns (extractShellSignatures content).functions := by
  exact shLoopF_good (shAllFunctionNames (splitOnChar '\n' content))
    (splitOnChar '\n' content) ((splitOnChar '\n' content).length + 1) 0
    { functions := [], vars := [], exports := [], sources := [] } GoodFns_nil

/- JS extractor invariants -/

theorem jsCallsAfter_sorted (text : Str) (matchEnd cap : Nat) (allFns : List Str) :
    ∀ cs, jsCallsAfter text matchEnd cap allFns = some cs → strSortedB cs = true := by
  intro cs h
  unfold jsCallsAfter at h
  dsimp only at h
  split at h
  · split at h
    · split at h
      · split at h
        · injection h with h'
          rw [← h']
          exact sorted_extractCallsJs _ _
        · cases h
      · cases h
    · cases h
  · cases h

theorem jsMkFd_good (sig : Str) (calls : Option (List Str))
    (hc : ∀ cs, calls = some cs → strSortedB cs = true) : GoodCalls (jsMkFd sig calls) := by
  unfold jsMkFd
  cases hcs : calls with
  | some cs =>
    intro cs' h
    simp only [FuncData.callsOf] at h
    injection h with h'
    rw [← h']
    exact hc cs hcs
  | none => intro cs' h; cases h

theorem jsAddMethod_good (cls : List (Str × ClassData)) (cn mn : Str) (fd : FuncData)
    (h : GoodClasses cls) (hfd : GoodCalls fd) : GoodClasses (jsAddMethod cls cn mn fd) := by
  unfold jsAddMethod
  exact GoodClasses_dmodify _ _ _ h (fun cd hcd => GoodFns_dinsert _ _ _ hcd hfd)

theorem jsMethodStep1_good (cc : Str) (allFns : List Str) (cn : Str)
    (cls : List (Str × ClassData)) (r : MRes) (h : GoodClasses cls) :
    GoodClasses (jsMethodStep1 cc allFns cn cls r) := by
  unfold jsMethodStep1
  dsimp only
  split
  · exact h
  · exact jsAddMethod_good _ _ _ _ h (jsMkFd_good _ _ (jsCallsAfter_sorted _ _ _ _))

theorem jsMethodStep2_good (cc : Str) (allFns : List Str) (cn : Str)
    (cls : List (Str × ClassData)) (r : MRes) (h : GoodClasses cls) :
    GoodClasses (jsMethodStep2 cc allFns cn cls r) := by
  unfold jsMethodStep2
  dsimp only
  split
  · exact h
  · exact jsAddMethod_good _ _ _ _ h (jsMkFd_good _ _ (jsCallsAfter_sorted _ _ _ _))

theorem jsMethodStep3_good (cc : Str) (allFns : List Str) (cn : Str)
    (cls : List (Str × ClassData)) (r : MRes) (h : GoodClasses cls) :
    GoodClasses (jsMethodStep3 cc allFns cn cls r) := by
  unfold jsMethodStep3
  dsimp only
  exact jsAddMethod_good _ _ _ _ h (jsMkFd_good _ _ (jsCallsAfter_sorted _ _ _ _))

theorem jsStaticStep_good (cn : Str) (cls : List (Str × ClassData)) (r : MRes)
    (h : GoodClasses cls) : GoodClasses (jsStaticStep cn cls r) := by
  unfold jsStaticStep
  dsimp only
  exact GoodClasses_dmodify _ _ _ h (fun cd hcd => hcd)

theorem jsClassContentStep_good (content : Str) (allFns : List Str)
    (cls : List (Str × ClassData)) (kv : Str × (Nat × Nat)) (h : GoodClasses cls) :
    GoodClasses (jsClassContentStep content allFns cls kv) := by
  unfold jsClassContentStep
  dsimp only
  apply foldl_pres _ GoodClasses _ (fun a r ha => jsStaticStep_good _ a r ha)
  apply foldl_pres _ GoodClasses _ (fun a r ha => jsMethodStep3_good _ _ _ a r ha)
  apply foldl_pres _ GoodClasses _ (fun a r ha => jsMethodStep2_good _ _ _ a r ha)
  apply foldl_pres _ GoodClasses _ (fun a r ha => jsMethodStep1_good _ _ _ a r ha)
  exact h

theorem jsFnStep_good (content : Str) (cp : List (Str × (Nat × Nat))) (allFns : List Str)
    (fns : List (Str × FuncData)) (r : MRes) (h : GoodFns fns) :
    GoodFns (jsFnStep content cp allFns fns r) := by
  unfold jsFnStep
  dsimp only
  split
  · exact h
  · exact GoodFns_dinsert _ _ _ h (jsMkFd_good _ _ (jsCallsAfter_sorted _ _ _ _))

theorem jsMkClassInfo_methods (content : Str) (s : Nat) (e : Option Str) :
    (jsMkClassInfo content s e).methods = [] := by
  unfold jsMkClassInfo
  dsimp only
  repeat' first
    | rfl
    | (dsimp only)
    | split

theorem jsClassScanStep_good (content : Str)
    (acc : List (Str × (Nat × Nat)) × List (Str × ClassData)) (r : MRes)
    (h : GoodClasses acc.2) : GoodClasses (jsClassScanStep content acc r).2 := by
  unfold jsClassScanStep
  dsimp only
  apply GoodClasses_dinsert _ _ _ h
  rw [jsMkClassInfo_methods]
  exact GoodFns_nil

theorem jsCleanupClass_methods (cd : ClassData) :
    (jsCleanupClass cd).methods = cd.methods := by
  unfold jsCleanupClass
  repeat' first
    | rfl
    | (dsimp only)
    | split

theorem extractJs_functions_good (content : Str) :
    GoodFns (extractJavascriptSignatures content).functions := by
  unfold extractJavascriptSignatures
  dsimp only
  apply foldl_pres _ GoodFns _ (fun a r ha => jsFnStep_good _ _ _ a r ha)
  apply foldl_pres _ GoodFns _ (fun a r ha => jsFnStep_good _ _ _ a r ha)
  exact GoodFns_nil

theorem extractJs_classes_good (content : Str) :
    GoodClasses (extractJavascriptSignatures content).classes := by
  unfold extractJavascriptSignatures
  dsimp only
  intro cl hcl
  rcases List.mem_map.mp hcl with ⟨kv0, hkv0, hkv0e⟩
  have hfold : GoodClasses ((reFinditer regJsClass content).foldl
      (jsClassScanStep content) ([], [])).2 := by
    apply foldl_pres _ (fun acc => GoodClasses acc.2) _
      (fun a r ha => jsClassScanStep_good content a r ha)
    intro cl0 hcl0
    cases hcl0
  have hfold2 : GoodFns kv0.2.methods :=
    foldl_pres _ GoodClasses _
      (fun a kv ha => jsClassContentStep_good content _ a kv ha) _ hfold kv0 hkv0
  rw [← hkv0e]
  simpa [jsCleanupClass_methods] using hfold2

/- ============ Small helper lemmas for the claim theorems ============ -/

theorem emptyToNone_ne_some_nil {α : Type} (l : List α) : emptyToNone l ≠ some [] := by
  cases l <;> simp [emptyToNone]

theorem pyReplaceChar_id (s : Str) (a b : Char) (h : a ∉ s) : pyReplaceChar s a b = s := by
  unfold pyReplaceChar
  induction s with
  | nil => rfl
  | cons c t ih =>
    simp only [List.map_cons]
    have hc : c ≠ a := fun he => h (by rw [← he]; exact List.mem_cons_self c t)
    rw [if_neg hc, ih (fun hm => h (List.mem_cons_of_mem c hm))]

theorem findFirstExt_some_shape (keys : List Str) (r : Str) (exts : List Str) (d : Str)
    (h : findFirstExt keys r exts = some d) :
    ∃ e ∈ exts, d = pyReplaceChar (r ++ e) '\\' '/' := by
  induction exts with
  | nil => cases h
  | cons e rest ih =>
    simp only [findFirstExt] at h
    split at h
    · injection h with h
      exact ⟨e, List.mem_cons_self e rest, h.symm⟩
    · obtain ⟨e', he', hd⟩ := ih h
      exact ⟨e', List.mem_cons_of_mem e he', hd⟩

theorem findFirstExt_none_of (keys : List Str) (r : Str) (exts : List Str)
    (h : ∀ e ∈ exts, (r ++ e) ∉ keys ∧ pyReplaceChar (r ++ e) '\\' '/' ∉ keys) :
    findFirstExt keys r exts = none := by
  induction exts with
  | nil => rfl
  | cons e rest ih =>
    have he := h e (List.mem_cons_self e rest)
    simp only [findFirstExt]
    rw [if_neg (fun hc => hc.elim he.1 he.2)]
    exact ih (fun e' he' => h e' (List.mem_cons_of_mem e he'))

theorem findFirstExt_cons_pos (keys : List Str) (r e : Str) (rest : List Str)
    (h : (r ++ e) ∈ keys ∨ pyReplaceChar (r ++ e) '\\' '/' ∈ keys) :
    findFirstExt keys r (e :: rest) = some (pyReplaceChar (r ++ e) '\\' '/') := by
  simp only [findFirstExt]
  rw [if_pos h]

theorem findFirstExt_cons_neg (keys : List Str) (r e : Str) (rest : List Str)
    (h1 : (r ++ e) ∉ keys) (h2 : pyReplaceChar (r ++ e) '\\' '/' ∉ keys) :
    findFirstExt keys r (e :: rest) = findFirstExt keys r rest := by
  simp only [findFirstExt]
  rw [if_neg (fun hc => hc.elim h1 h2)]

/- ============ Claim theorems ============ -/

/-- Claim C1, counterexample: in the index built from `c1Input` the method
`C.m` calls `helper`, but the `called_by` entry for `helper` holds the
qualified name `C.m`, not the unqualified method name `m`. -/
theorem claim_C1_counterexample :
    dgetD (collectGraphs c1Files).2 (chars "helper") [] = [chars "C.m"]
    ∧ chars "m" ∉ dgetD (collectGraphs c1Files).2 (chars "helper") []
    ∧ (∀ kv ∈ c1Files, ∀ cl ∈ kv.2.classes.getD [], ∀ m ∈ cl.2.methods,
        FuncData.callsOf m.2 = some [chars "helper"]) := by decide!

/-- Claim C1, amended: for every callee `c` in some recorded `calls` list,
the `called_by` entry for `c` contains the caller's bare name for
module-level functions and the qualified `Class.method` name for methods. -/
theorem claim_C1_amended (files : List (Str × FileInfo)) :
    (∀ path info fs fname fd calls c, (path, info) ∈ files →
      info.functions = some fs → (fname, fd) ∈ fs → FuncData.callsOf fd = some calls →
      c ∈ calls → fname ∈ dgetD (collectGraphs files).2 c [])
    ∧ (∀ path info cls cname cd mname md calls c, (path, info) ∈ files →
      info.classes = some cls → (cname, cd) ∈ cls → (mname, md) ∈ cd.methods →
      FuncData.callsOf md = some calls → c ∈ calls →
      (cname ++ chars "." ++ mname) ∈ dgetD (collectGraphs files).2 c []) := by
  constructor
  · intro path info fs fname fd calls c hmem hfs hf hc hcc
    show InCbg fname c (collectGraphs files)
    unfold collectGraphs
    exact foldl_estab cgFileStep (InCbg fname c) files (path, info) hmem
      (fun acc => cgFileStep_fn_estab path fname c info fs fd calls hfs hf hc hcc acc)
      (fun a y h => cgFileStep_mono fname c a y h) ([], [])
  · intro path info cls cname cd mname md calls c hmem hcls hcl hm hc hcc
    show InCbg (cname ++ chars "." ++ mname) c (collectGraphs files)
    unfold collectGraphs
    exact foldl_estab cgFileStep (InCbg (cname ++ chars "." ++ mname) c) files (path, info) hmem
      (fun acc => cgFileStep_method_estab path cname mname c info cls cd md calls
        hcls hcl hm hc hcc acc)
      (fun a y h => cgFileStep_mono (cname ++ chars "." ++ mname) c a y h) ([], [])

/-- Witness: the amended C1 statement applied to the concrete scenario. -/
theorem claim_C1_amended_witness :
    (chars "C" ++ chars "." ++ chars "m") ∈ dgetD (collectGraphs c1Files).2 (chars "helper") [] :=
  (claim_C1_amended c1Files).2 (chars "a.py")
    (mkFileInfoPy (chars "python") (extractPythonSignatures c1Input))
    [(chars "C", { methods := [(chars "m",
        FuncData.record (chars "(self)") none none (some [chars "helper"]) none)] })]
    (chars "C")
    { methods := [(chars "m",
        FuncData.record (chars "(self)") none none (some [chars "helper"]) none)] }
    (chars "m")
    (FuncData.record (chars "(self)") none none (some [chars "helper"]) none)
    [chars "helper"] (chars "helper")
    (by decide!) (by decide!) (by decide!) (by decide!) (by decide!) (by decide!)

/-- Claim C2, counterexample: when `a.py` defines `run` calling `helper()`
and only `b.py` defines `helper`, the per-file call scanner records no call,
so the finished graph has no `called_by` entry for `helper` at all. -/
theorem claim_C2_counterexample :
    dget? (collectGraphs c2xFiles).2 (chars "helper") = none
    ∧ (∀ kv ∈ (graphPass c2xFiles).1, ∀ f ∈ kv.2.functions.getD [],
        FuncData.calledByOf f.2 = none) := by decide!

/-- Claim C2, amended: in the scenario where the defining file also contains
`helper`, `called_by[helper]` is exactly `[run]`, and the writeback stores it
into the `helper` record of both files. -/
theorem claim_C2_amended :
    dgetD (collectGraphs c2Files).2 (chars "helper") [] = [chars "run"]
    ∧ (∀ kv ∈ (graphPass c2Files).1, ∀ f ∈ kv.2.functions.getD [],
        f.1 = chars "helper" → FuncData.calledByOf f.2 = some [chars "run"]) := by decide!

/-- Claim C3, counterexample: on empty input the optional bundle keys are
deleted (absent), so not all declared fields are present. -/
theorem claim_C3_counterexample :
    (extractPythonSignatures (chars "")).imports = none
    ∧ (extractPythonSignatures (chars "")).constants = none
    ∧ (extractPythonSignatures (chars "")).vars = none
    ∧ (extractPythonSignatures (chars "")).typeAliases = none
    ∧ (extractPythonSignatures (chars "")).enums = none
    ∧ (extractShellSignatures (chars "")).vars = none
    ∧ (extractJavascriptSignatures (chars "")).imports = none := by decide!

/-- Claim C3, amended: each extractor is total and returns a bundle whose
optional collections are either absent or nonempty (never a present empty
collection), and whose `call_graph` key is always the empty map. -/
theorem claim_C3_amended (content : Str) :
    (extractPythonSignatures content).imports ≠ some []
    ∧ (extractPythonSignatures content).constants ≠ some []
    ∧ (extractPythonSignatures content).vars ≠ some []
    ∧ (extractPythonSignatures content).typeAliases ≠ some []
    ∧ (extractPythonSignatures content).enums ≠ some []
    ∧ (extractPythonSignatures content).callGraph = []
    ∧ (extractJavascriptSignatures content).imports ≠ some []
    ∧ (extractJavascriptSignatures content).constants ≠ some []
    ∧ (extractJavascriptSignatures content).vars ≠ some []
    ∧ (extractJavascriptSignatures content).typeAliases ≠ some []
    ∧ (extractJavascriptSignatures content).interfaces ≠ some []
    ∧ (extractJavascriptSignatures content).enums ≠ some []
    ∧ (extractJavascriptSignatures content).callGraph = []
    ∧ (extractShellSignatures content).vars ≠ some []
    ∧ (extractShellSignatures content).exports ≠ some []
    ∧ (extractShellSignatures content).sources ≠ some []
    ∧ (extractShellSignatures content).callGraph = [] :=
  ⟨emptyToNone_ne_some_nil _, emptyToNone_ne_some_nil _, emptyToNone_ne_some_nil _,
   emptyToNone_ne_some_nil _, emptyToNone_ne_some_nil _, rfl,
   emptyToNone_ne_some_nil _, emptyToNone_ne_some_nil _, emptyToNone_ne_some_nil _,
   emptyToNone_ne_some_nil _, emptyToNone_ne_some_nil _, emptyToNone_ne_some_nil _, rfl,
   emptyToNone_ne_some_nil _, emptyToNone_ne_some_nil _, emptyToNone_ne_some_nil _, rfl⟩

/-- Witness: the amended C3 statement at a concrete input. -/
theorem claim_C3_amended_witness :
    (extractPythonSignatures (chars "import os\n")).imports ≠ some []
    ∧ (extractPythonSignatures (chars "import os\n")).callGraph = [] :=
  ⟨(claim_C3_amended (chars "import os\n")).1,
   (claim_C3_amended (chars "import os\n")).2.2.2.2.2.1⟩

/-- Claim C4, counterexample: a carriage return is a control character that
the DSL escape leaves in place. -/
theorem claim_C4_counterexample :
    dslEscape (chars "a\rb") = chars "a\rb"
    ∧ (dslEscape (chars "a\rb")).any isCtrlChar = true := by decide

/-- Claim C4, amended: the DSL escape maps each newline and each tab to one
space and leaves every other character (control characters included)
unchanged. -/
theorem claim_C4_amended (s : Str) :
    dslEscape s = s.map (fun c => if c = '\n' ∨ c = '\t' then ' ' else c) := by
  unfold dslEscape pyReplaceChar
  rw [List.map_map]
  apply List.map_congr_left
  intro c _
  simp only [Function.comp_apply]
  by_cases h1 : c = '\n'
  · subst h1; decide
  · by_cases h2 : c = '\t'
    · subst h2; decide
    · rw [if_neg h1, if_neg h2, if_neg (fun hc => hc.elim h1 h2)]

/-- Witness: the amended C4 statement at a concrete input. -/
theorem claim_C4_amended_witness :
    dslEscape (chars "a\n\tb") =
      (chars "a\n\tb").map (fun c => if c = '\n' ∨ c = '\t' then ' ' else c) :=
  claim_C4_amended (chars "a\n\tb")

/-- Claim C5: on the one-line shell function the body scan (which starts on
the following line) never sees the `$1 $2` references, so the recorded
signature is `()` and not the `($1 $\x7b2\x7d)` stated by the spec. -/
theorem claim_C5_theorem :
    (extractShellSignatures (chars "greet() \x7b echo $1 $2; \x7d")).functions
      = [(chars "greet", FuncData.plain (chars "()"))] := by decide!

/-- Claim C6, counterexample: `a/b.py` importing `./sibling` is resolved to
`a/sibling.js` (present in the index) even though `a/sibling.py` is absent,
so the import is not dropped. -/
theorem claim_C6_counterexample :
    depPass c6Files = [(chars "a/b.py", [chars "a/sibling.js"])]
    ∧ chars "a/sibling.py" ∉ dkeys c6Files := by decide!

/-- Claim C6, amended: the `./sibling` import of `a/b.py` resolves to
`a/sibling.py` iff that path is an index key (the `.py` candidate is tried
first), and when no candidate with any extension is a key the import
produces no dependency at all. -/
theorem claim_C6_amended (keys : List Str) :
    (resolveOneImport keys (pathParent (chars "a/b.py")) (chars "./sibling")
        = some (chars "a/sibling.py") ↔ chars "a/sibling.py" ∈ keys)
    ∧ ((∀ e ∈ resolveExts, (chars "a/sibling" ++ e) ∉ keys) →
        resolveOneImport keys (pathParent (chars "a/b.py")) (chars "./sibling") = none) := by
  have hres : resolveOneImport keys (pathParent (chars "a/b.py")) (chars "./sibling")
      = findFirstExt keys (chars "a/sibling") resolveExts := rfl
  have happ : chars "a/sibling" ++ chars ".py" = chars "a/sibling.py" := by decide
  have hrep : pyReplaceChar (chars "a/sibling" ++ chars ".py") '\\' '/'
      = chars "a/sibling.py" := by decide
  rw [hres]
  constructor
  · constructor
    · intro h
      by_cases hmem : chars "a/sibling.py" ∈ keys
      · exact hmem
      · exfalso
        have hmem' : chars "a/sibling" ++ chars ".py" ∉ keys := by rw [happ]; exact hmem
        have hmem'' : pyReplaceChar (chars "a/sibling" ++ chars ".py") '\\' '/' ∉ keys := by
          rw [hrep]; exact hmem
        rw [show resolveExts = chars ".py" ::
              [chars ".js", chars ".ts", chars ".jsx", chars ".tsx", []] from rfl,
            findFirstExt_cons_neg keys _ _ _ hmem' hmem''] at h
        obtain ⟨e, he, hd⟩ := findFirstExt_some_shape keys _ _ _ h
        simp only [List.mem_cons, List.not_mem_nil, or_false] at he
        rcases he with rfl | rfl | rfl | rfl | rfl
        · exact absurd hd (by decide)
        · exact absurd hd (by decide)
        · exact absurd hd (by decide)
        · exact absurd hd (by decide)
        · exact absurd hd (by decide)
    · intro hmem
      rw [show resolveExts = chars ".py" ::
            [chars ".js", chars ".ts", chars ".jsx", chars ".tsx", []] from rfl,
          findFirstExt_cons_pos keys _ _ _ (Or.inl (by rw [happ]; exact hmem)), hrep]
  · intro hall
    apply findFirstExt_none_of
    intro e he
    refine ⟨hall e he, ?_⟩
    have hback : ('\\' : Char) ∉ chars "a/sibling" ++ e := by
      intro hm
      rcases List.mem_append.1 hm with hm | hm
      · exact absurd hm (by decide)
      · revert hm
        have : ∀ x ∈ resolveExts, ('\\' : Char) ∉ x := by decide
        exact this e he
    rw [pyReplaceChar_id _ _ _ hback]
    exact hall e he

/-- Witness: the amended C6 statement at two concrete key sets. -/
theorem claim_C6_amended_witness :
    resolveOneImport [chars "a/sibling.py"] (pathParent (chars "a/b.py")) (chars "./sibling")
      = some (chars "a/sibling.py")
    ∧ resolveOneImport [chars "x.py"] (pathParent (chars "a/b.py")) (chars "./sibling")
      = none :=
  ⟨(claim_C6_amended [chars "a/sibling.py"]).1.mpr (by decide),
   (claim_C6_amended [chars "x.py"]).2 (by decide)⟩

/-- Claim C7: the `Color(Enum)` class ends up under `enums` with values
`[RED, BLUE]` and is removed from `classes`. -/
theorem claim_C7_theorem :
    (extractPythonSignatures c7Input).enums
      = some [(chars "Color", { values := [chars "RED", chars "BLUE"], doc := [] })]
    ∧ dget? (extractPythonSignatures c7Input).classes (chars "Color") = none := by decide!

/-- Claim C8, counterexample: the `imports` list keeps source order, so two
imports in reverse alphabetical order stay unsorted. -/
theorem claim_C8_counterexample :
    (extractPythonSignatures c8Input).imports = some [chars "b", chars "a"]
    ∧ strSortedB [chars "b", chars "a"] = false := by decide!

/-- Claim C8, amended: every `calls` list recorded by any of the three
extractors (module-level functions and class methods alike) is sorted;
determinism holds trivially for the pure extraction functions, but
`imports`, `variables` and enum `values` keep source order. -/
theorem claim_C8_amended (content : Str) :
    GoodFns (extractPythonSignatures content).functions
    ∧ GoodClasses (extractPythonSignatures content).classes
    ∧ GoodFns (extractShellSignatures content).functions
    ∧ GoodFns (extractJavascriptSignatures content).functions
    ∧ GoodClasses (extractJavascriptSignatures content).classes :=
  ⟨extractPy_functions_good content, extractPy_classes_good content,
   extractSh_functions_good content, extractJs_functions_good content,
   extractJs_classes_good content⟩

/-- Witness: the amended C8 statement applied to a concrete body whose
callees appear unsorted in the source. -/
theorem claim_C8_amended_witness : strSortedB [chars "a", chars "b"] = true :=
  (claim_C8_amended c8CallsInput).1
    (chars "g", FuncData.record (chars "()") none none (some [chars "a", chars "b"]) none)
    (by decide!) [chars "a", chars "b"] (by decide!)

/-- Claim C9: `build_call_graph` of index_utils.py is dead code - its
reverse-index loop folds over a `calls_map` that is never populated, so it
returns a pair of empty maps on all inputs. -/
theorem claim_C9_theorem (functions : List (Str × FuncData))
    (classes : List (Str × ClassData)) :
    buildCallGraphUtil functions classes = ([], []) := rfl

/-- Witness: C9 at a concrete input. -/
theorem claim_C9_theorem_witness :
    buildCallGraphUtil [(chars "f", FuncData.plain (chars "()"))] [] = ([], []) :=
  claim_C9_theorem [(chars "f", FuncData.plain (chars "()"))] []

/-- Claim C10: a relative import that starts with `.` but not `./` or `../`
resolves against the importing file's directory alone - the module name is
discarded, the result ranges over `dir ++ ext` for the fixed extension list,
and it is never the named sibling file `dir/name.py`. -/
theorem claim_C10_theorem (keys : List Str) (fileDir imp : Str)
    (h1 : strStarts imp (chars ".") = true)
    (h2 : strStarts imp (chars "./") = false)
    (h3 : strStarts imp (chars "../") = false)
    (h4 : ('\\' : Char) ∉ fileDir) :
    resolveOneImport keys fileDir imp = findFirstExt keys fileDir resolveExts
    ∧ (∀ d, resolveOneImport keys fileDir imp = some d →
        ∃ e ∈ resolveExts, d = fileDir ++ e)
    ∧ (∀ d rest, resolveOneImport keys fileDir imp = some d →
        d ≠ fileDir ++ chars "/" ++ rest) := by
  have h2' : ¬ (strStarts imp (chars "./") = true) := by simp [h2]
  have h3' : ¬ (strStarts imp (chars "../") = true) := by simp [h3]
  have heq : resolveOneImport keys fileDir imp = findFirstExt keys fileDir resolveExts := by
    unfold resolveOneImport
    rw [if_pos h1]
    dsimp only
    rw [if_neg h2', if_neg h3']
  have hexts : ∀ x ∈ resolveExts, ('\\' : Char) ∉ x ∧ ('/' : Char) ∉ x := by decide
  have hshape : ∀ d, resolveOneImport keys fileDir imp = some d →
      ∃ e ∈ resolveExts, d = fileDir ++ e := by
    intro d hd
    rw [heq] at hd
    obtain ⟨e, he, hde⟩ := findFirstExt_some_shape keys fileDir resolveExts d hd
    have hnb : ('\\' : Char) ∉ fileDir ++ e := fun hm =>
      (List.mem_append.1 hm).elim h4 (hexts e he).1
    rw [pyReplaceChar_id _ _ _ hnb] at hde
    exact ⟨e, he, hde⟩
  refine ⟨heq, hshape, ?_⟩
  intro d rest hd hcontra
  obtain ⟨e, he, hde⟩ := hshape d hd
  have he3 : e = chars "/" ++ rest :=
    List.append_cancel_left
      (hde.symm.trans (hcontra.trans (List.append_assoc fileDir (chars "/") rest)))
  have hsl : ('/' : Char) ∈ e := by
    rw [he3]; exact List.mem_append.2 (Or.inl (by decide))
  exact (hexts e he).2 hsl

/-- Witness: C10 at a concrete instance where the directory itself is an
index key. -/
theorem claim_C10_theorem_witness :
    resolveOneImport [chars "a"] (chars "a") (chars ".sibling")
      = findFirstExt [chars "a"] (chars "a") resolveExts
    ∧ resolveOneImport [chars "a"] (chars "a") (chars ".sibling")
      ≠ some (chars "a" ++ chars "/" ++ chars "sibling.py") := by
  have h := claim_C10_theorem [chars "a"] (chars "a") (chars ".sibling")
    (by decide) (by decide) (by decide) (by decide)
  exact ⟨h.1, fun hc => h.2.2 _ (chars "sibling.py") hc rfl⟩

end ProjIdx
